import Mathlib

/-!
Shallow embedding of the room/session coordinator of `variant-go-server`
(`src/server/src/server.rs`, the `GameServer` actix actor).

Modelling conventions:
* `usize` session ids, `u64` user ids, `u32` room ids and `Uuid` tokens are
  all modelled as `Nat` (no arithmetic is performed on them). The one place
  integer width matters is the `u32` `game_counter`: its increment
  `game_counter += 1` wraps modulo `2^32` in release builds, so it is
  modelled as `(game_counter + 1) % u32Mod`.
* `HashMap` becomes `AList` over `Nat` keys, `HashSet` becomes `Finset Nat`.
* `Instant` timestamps become `Nat` seconds; every handler that calls
  `Instant::now()` takes the current time as an explicit argument, and the
  thread RNG draws (`rng.gen()`) are likewise explicit arguments.
* `Recipient::do_send` is modelled by returning the list of
  `(session id, message)` pairs emitted, in emission order; a message is
  recorded exactly when the code would call `do_send` on a live session
  entry, mirroring the `self.sessions.get(...)` guards in the source.
-/

namespace VGS

abbrev SessionId := Nat
abbrev UserId := Nat
abbrev RoomId := Nat
abbrev Token := Nat

/-- Map with `Nat` keys, standing in for the server's `HashMap`s. -/
abbrev NatMap (β : Type) := AList (fun _ : Nat => β)

/-- Modulus of the `u32` room counter: `game_counter += 1` wraps at `2^32`
in release builds. -/
def u32Mod : Nat := 4294967296

/-- Modelled from the spec: `game::ActionKind` (the game engine crate is not
under `src/`); only the constructor shapes used by `server.rs` matter here. -/
inductive ActionKind : Type where
  | place (x y : Nat)
  | pass
  | cancel
deriving DecidableEq

/-- Wire-level game action, `message::GameAction` as matched in
`Handler<GameAction> for GameServer`. -/
inductive WireAction : Type where
  | Place (x y : Nat)
  | Pass
  | Cancel
  | TakeSeat (seat : Nat)
  | LeaveSeat (seat : Nat)
deriving DecidableEq

/-- Modelled from the spec: the `game::Game` engine lives outside `src/`, so
it is kept abstract: any type `G` of engine states with a fresh `standard`
game, state transformers for the engine calls whose `Result` the server
discards, and a view extractor. All server theorems are proved for every
such engine, which is exactly the "regardless of the engine outcome" reading
of the spec. -/
structure Engine (G V : Type) where
  standard : G
  make_action : UserId → ActionKind → G → G
  take_seat : UserId → Nat → G → G
  leave_seat : UserId → Nat → G → G
  get_view : G → V

/-- Profile record (`pub struct Profile`). -/
structure Profile where
  user_id : UserId
  token : Token
  nick : Option String
deriving DecidableEq

/-- Session record (`pub struct Session`); the `client : Recipient<Message>`
handle is represented implicitly by the emitted-message lists. -/
structure Session where
  user_id : Option UserId
deriving DecidableEq

/-- Room record (`pub struct Room`). -/
structure Room (G : Type) where
  members : Finset SessionId
  users : Finset UserId
  name : String
  last_action : Nat
  game : G
deriving DecidableEq

/-- Server-to-client message (`pub enum Message`). -/
inductive Msg (V : Type) : Type where
  | AnnounceRoom (id : RoomId) (name : String)
  | CloseRoom (id : RoomId)
  | GameStatus (room_id : RoomId) (members : List UserId) (view : V)
  | Identify (p : Profile)
  | UpdateProfile (p : Profile)
deriving DecidableEq

/-- Full coordinator state (`pub struct GameServer`); the `rng` field is
replaced by explicit oracle arguments to the handlers, and `game_counter`
carries the `u32` counter value (kept below `u32Mod` by the wrapping
increment in the create handler; it starts at 0). -/
structure GameServer (G : Type) where
  sessions : NatMap Session
  sessions_by_user : NatMap (List SessionId)
  profiles : NatMap Profile
  user_tokens : NatMap UserId
  rooms : NatMap (Room G)
  game_counter : Nat
deriving DecidableEq

/-- Initial state (`impl Default for GameServer`). -/
def GameServer.default (G : Type) : GameServer G :=
  { sessions := ∅
    sessions_by_user := ∅
    profiles := ∅
    user_tokens := ∅
    rooms := ∅
    game_counter := 0 }

variable {G V : Type}

/-- An emitted `(recipient session id, message)` pair. -/
abbrev Out (V : Type) := SessionId × Msg V

/-- Deterministic listing of a `HashSet` (`iter().copied().collect()`; the
source iteration order is unspecified, so the ascending listing is chosen).
Insertion sort is used so that the listing evaluates inside the kernel. -/
def setList (s : Finset Nat) : List Nat :=
  Quotient.liftOn s.val (fun l => l.insertionSort (· ≤ ·))
    (fun l1 l2 h =>
      List.eq_of_perm_of_sorted
        ((List.perm_insertionSort _ l1).trans
          (h.trans (List.perm_insertionSort _ l2).symm))
        (List.sorted_insertionSort _ l1) (List.sorted_insertionSort _ l2))

/-- Message to every connected session (`GameServer::send_global_message`). -/
def send_global_message (s : GameServer G) (m : Msg V) : List (Out V) :=
  s.sessions.entries.map (fun e => (e.fst, m))

/-- Message to the live sessions among a room's members
(`GameServer::send_room_message`). -/
def send_room_message (s : GameServer G) (room : RoomId) (m : Msg V) :
    List (Out V) :=
  match s.rooms.lookup room with
  | none => []
  | some r =>
    (setList r.members).filterMap fun sid =>
      if (s.sessions.lookup sid).isSome then some (sid, m) else none

/-- Message to one session if it exists (`GameServer::send_message`). -/
def send_message (s : GameServer G) (sid : SessionId) (m : Msg V) :
    List (Out V) :=
  if (s.sessions.lookup sid).isSome then [(sid, m)] else []

/-- Message to every live session bound to a user
(`GameServer::send_user_message`). -/
def send_user_message (s : GameServer G) (user : UserId) (m : Msg V) :
    List (Out V) :=
  match s.sessions_by_user.lookup user with
  | none => []
  | some sids =>
    sids.filterMap fun sid =>
      if (s.sessions.lookup sid).isSome then some (sid, m) else none

/-- Is some remaining member session bound to `uid`? This is the
`room.members.iter().any(|s| sessions.get(s).unwrap().user_id == Some(user_id))`
check inside `GameServer::leave_room` (a dangling member, which would make
the source `unwrap` panic, counts as not bound). -/
def userStillPresent (s : GameServer G) (members : Finset SessionId)
    (uid : UserId) : Bool :=
  (setList members).any fun m =>
    match s.sessions.lookup m with
    | some t => t.user_id == some uid
    | none => false

/-- The fresh-view broadcast payload for a room. -/
def statusMsg (E : Engine G V) (rid : RoomId) (room : Room G) : Msg V :=
  Msg.GameStatus rid (setList room.users) (E.get_view room.game)

/-- Leave one room (`GameServer::leave_room`): remove the session from the
room's member set when present; when the session is identified and no other
member session is bound to the same user, also remove the user from the
room's distinct-user set and re-broadcast the room view. -/
def leave_room (E : Engine G V) (s : GameServer G) (sid : SessionId)
    (rid : RoomId) : GameServer G × List (Out V) :=
  match s.sessions.lookup sid with
  | none => (s, [])
  | some sess =>
    match s.rooms.lookup rid with
    | none => (s, [])
    | some room =>
      if sid ∈ room.members then
        match sess.user_id with
        | none =>
          ({ s with rooms := s.rooms.insert rid { room with members := room.members.erase sid } },
            [])
        | some uid =>
          if userStillPresent s (room.members.erase sid) uid then
            ({ s with rooms := s.rooms.insert rid { room with members := room.members.erase sid } },
              [])
          else
            let room' : Room G :=
              { room with members := room.members.erase sid,
                          users := room.users.erase uid }
            let s' : GameServer G := { s with rooms := s.rooms.insert rid room' }
            (s', send_room_message s' rid (statusMsg E rid room'))
      else (s, [])

/-- Room ids whose member set contains `sid` (the collection loops in the
`Disconnect`, `Join` and `CreateRoom` handlers). -/
def roomsWith (s : GameServer G) (sid : SessionId) : List RoomId :=
  (s.rooms.entries.filter (fun e => decide (sid ∈ e.snd.members))).map Sigma.fst

/-- Sequentially leave each room in the list (the `for room_id in rooms`
loops that follow the collection loops). -/
def leaveMany (E : Engine G V) :
    GameServer G → SessionId → List RoomId → GameServer G × List (Out V)
  | s, _, [] => (s, [])
  | s, sid, rid :: rest =>
    let p := leave_room E s sid rid
    let q := leaveMany E p.1 sid rest
    (q.1, p.2 ++ q.2)

/-- Dispatch of a wire action to the engine call made in
`Handler<GameAction>` (the discarded `Result` is the post-state itself). -/
def applyWire (E : Engine G V) (uid : UserId) : WireAction → G → G
  | .Place x y => E.make_action uid (.place x y)
  | .Pass => E.make_action uid .pass
  | .Cancel => E.make_action uid .cancel
  | .TakeSeat k => fun g => E.take_seat uid k g
  | .LeaveSeat k => fun g => E.leave_seat uid k g

/-- Register a new session under the drawn random id
(`Handler<Connect> for GameServer`); `drawnId` is the `rng.gen::<usize>()`
draw. Returns the id sent back. -/
def handleConnect (s : GameServer G) (drawnId : SessionId) :
    GameServer G × SessionId :=
  ({ s with sessions := s.sessions.insert drawnId { user_id := none } }, drawnId)

/-- Session-entry removal part of `Handler<Disconnect>`: drop the session
and, when it was identified, retain only other ids in its user's session
list (the `self.sessions.remove` / `sessions.retain` tail of the handler).
Erasing the session entry does not change `sessions_by_user`, so the two
mutations are recorded in one update. -/
def removeSession (s : GameServer G) (id : SessionId) : GameServer G :=
  match s.sessions.lookup id with
  | none => s
  | some sess =>
    match sess.user_id with
    | none => { s with sessions := s.sessions.erase id }
    | some uid =>
      match s.sessions_by_user.lookup uid with
      | none => { s with sessions := s.sessions.erase id }
      | some l =>
        { s with sessions := s.sessions.erase id,
                 sessions_by_user :=
                   s.sessions_by_user.insert uid (l.filter (fun x => decide (x ≠ id))) }

/-- Session teardown (`Handler<Disconnect> for GameServer`). -/
def handleDisconnect (E : Engine G V) (s : GameServer G) (id : SessionId) :
    GameServer G × List (Out V) :=
  let p := leaveMany E s id (roomsWith s id)
  (removeSession p.1 id, p.2)

/-- Room listing (`Handler<ListRooms> for GameServer`). -/
def handleListRooms (s : GameServer G) : List (RoomId × String) :=
  s.rooms.entries.map (fun e => (e.fst, e.snd.name))

/-- Membership-insertion part of `Handler<Join>` (the final `catch!` block):
if the target room exists, add the session and its user, then re-broadcast
the room view, send each member's profile to the joiner, and the joiner's
profile to the room. -/
def joinInsert (E : Engine G V) (s1 : GameServer G) (id : SessionId)
    (user_id : UserId) (room_id : RoomId) : GameServer G × List (Out V) :=
  match s1.rooms.lookup room_id with
  | none => (s1, [])
  | some room =>
    let room' : Room G :=
      { room with members := insert id room.members,
                  users := insert user_id room.users }
    let s2 : GameServer G := { s1 with rooms := s1.rooms.insert room_id room' }
    let m1 := send_room_message s2 room_id (statusMsg E room_id room')
    let m2 := (setList room'.users).foldl
      (fun acc u =>
        match s2.profiles.lookup u with
        | some pr => acc ++ send_message s2 id (Msg.UpdateProfile pr)
        | none => acc)
      []
    let m3 :=
      match s2.profiles.lookup user_id with
      | some pr => send_room_message s2 room_id (Msg.UpdateProfile pr)
      | none => []
    (s2, m1 ++ m2 ++ m3)

/-- Join a room (`Handler<Join> for GameServer`): requires an identified
session, leaves all currently occupied rooms, then (if the target room
exists) adds membership and re-broadcasts views and profiles. -/
def handleJoin (E : Engine G V) (s : GameServer G) (id : SessionId)
    (room_id : RoomId) : GameServer G × List (Out V) :=
  match (s.sessions.lookup id).bind Session.user_id with
  | none => (s, [])
  | some user_id =>
    let p := leaveMany E s id (roomsWith s id)
    let q := joinInsert E p.1 id user_id room_id
    (q.1, p.2 ++ q.2)

/-- Create a room (`Handler<CreateRoom> for GameServer`): requires an
identified session, leaves all current rooms, allocates `game_counter` as
the id, bumps the counter (wrapping at `2^32`, the release-build semantics
of the `u32` increment), installs a fresh standard game with the creator
as sole member, and announces globally. Returns `(state, messages, result)`
where the result is the `MessageResult<CreateRoom>` payload. -/
def handleCreateRoom (E : Engine G V) (s : GameServer G) (id : SessionId)
    (name : String) (now : Nat) :
    GameServer G × List (Out V) × Option RoomId :=
  match (s.sessions.lookup id).bind Session.user_id with
  | none => (s, [], none)
  | some user_id =>
    let p := leaveMany E s id (roomsWith s id)
    let s1 := p.1
    let room_id := s1.game_counter
    let s2 : GameServer G := { s1 with game_counter := (s1.game_counter + 1) % u32Mod }
    let room : Room G :=
      { members := {id}, users := {user_id}, name := name,
        last_action := now, game := E.standard }
    let m1 := send_message s2 id (statusMsg E room_id room)
    let s3 : GameServer G := { s2 with rooms := s2.rooms.insert room_id room }
    let m2 := send_global_message s3 (Msg.AnnounceRoom room_id name)
    (s3, p.2 ++ m1 ++ m2, some room_id)

/-- Mutation part of `Handler<GameAction>`: if the room exists, stamp
`last_action := now` and apply the engine call (its `Result` discarded). -/
def gameActionTouch (E : Engine G V) (s : GameServer G) (user_id : UserId)
    (room_id : RoomId) (action : WireAction) (now : Nat) : GameServer G :=
  match s.rooms.lookup room_id with
  | some room =>
    let room' : Room G :=
      { room with last_action := now,
                  game := applyWire E user_id action room.game }
    { s with rooms := s.rooms.insert room_id room' }
  | none => s

/-- Post-action re-broadcast of `Handler<GameAction>`. -/
def gameActionMsgs (E : Engine G V) (s1 : GameServer G) (room_id : RoomId) :
    List (Out V) :=
  match s1.rooms.lookup room_id with
  | some room => send_room_message s1 room_id (statusMsg E room_id room)
  | none => []

/-- Dispatch a game action (`Handler<GameAction> for GameServer`): requires
an identified session; mutates the room if it exists, then re-broadcasts
the room's fresh view to its members. -/
def handleGameAction (E : Engine G V) (s : GameServer G) (id : SessionId)
    (room_id : RoomId) (action : WireAction) (now : Nat) :
    GameServer G × List (Out V) :=
  match (s.sessions.lookup id).bind Session.user_id with
  | none => (s, [])
  | some user_id =>
    let s1 := gameActionTouch E s user_id room_id action now
    (s1, gameActionMsgs E s1 room_id)

/-- Token resolution of `Handler<IdentifyAs>`:
`self.user_tokens.entry(token).or_insert_with(|| rng.gen())`; returns the
resolved user id and the updated token map. -/
def resolveUser (s : GameServer G) (tok : Token) (freshUser : UserId) :
    UserId × NatMap UserId :=
  match s.user_tokens.lookup tok with
  | some u => (u, s.user_tokens)
  | none => (freshUser, s.user_tokens.insert tok freshUser)

/-- Profile resolution of `Handler<IdentifyAs>`:
`self.profiles.entry(user_id).or_insert_with(...)` followed by the optional
nick update. -/
def resolvedProfile (s : GameServer G) (user_id : UserId) (tok : Token)
    (nick : Option String) : Profile :=
  let profile0 :=
    match s.profiles.lookup user_id with
    | some pr => pr
    | none => { user_id := user_id, token := tok, nick := none }
  match nick with
  | some n => { profile0 with nick := some n }
  | none => profile0

/-- Session rebinding of `Handler<IdentifyAs>`:
`catch! { self.sessions.get_mut(&id)?.user_id = Some(user_id); }`. -/
def bindSession (s : GameServer G) (id : SessionId) (user_id : UserId) :
    GameServer G :=
  match s.sessions.lookup id with
  | some sess =>
    { s with sessions := s.sessions.insert id { sess with user_id := some user_id } }
  | none => s

/-- Map updates of `Handler<IdentifyAs>` up to (and including) the
`sessions_by_user` push of the requesting session id: token resolution,
profile upsert with optional nick update, and the session-list append. -/
def identMid (s : GameServer G) (id : SessionId) (tok : Token)
    (nick : Option String) (freshUser : UserId) : GameServer G :=
  let user_id := (resolveUser s tok freshUser).1
  let profile := resolvedProfile s user_id tok nick
  let s1 : GameServer G :=
    { s with user_tokens := (resolveUser s tok freshUser).2,
             profiles := s.profiles.insert user_id profile }
  let sids := ((s1.sessions_by_user.lookup user_id).getD []) ++ [id]
  { s1 with sessions_by_user := s1.sessions_by_user.insert user_id sids }

/-- Identity claim (`Handler<IdentifyAs> for GameServer`). `token` is the
client token after `Uuid::parse_str` (absent or unparsable both become
`none`); `freshToken` and `freshUser` are the `rng.gen()` draws used when
minting. Returns `(state, messages, profile result)`. -/
def handleIdentifyAs (s : GameServer G) (id : SessionId) (token : Option Token)
    (nick : Option String) (freshToken : Token) (freshUser : UserId) :
    GameServer G × List (Out V) × Profile :=
  let tok := token.getD freshToken
  let user_id := (resolveUser s tok freshUser).1
  let profile := resolvedProfile s user_id tok nick
  -- In the source this send happens after the profile/token update, but
  -- `send_user_message` reads only `sessions_by_user` and `sessions`, which
  -- that update leaves untouched, so it is computed from `s`. Crucially it
  -- still happens before the `sessions.push(id)` inside `identMid`.
  let m1 := send_user_message s user_id (Msg.Identify profile)
  let s3 := bindSession (identMid s id tok nick freshUser) id user_id
  let rids := (s3.rooms.entries.filter
      (fun e => decide (user_id ∈ e.snd.users))).map Sigma.fst
  let m2 := rids.foldl
    (fun acc rid => acc ++ send_room_message s3 rid (Msg.UpdateProfile profile)) []
  (s3, m1 ++ m2, profile)

/-- Kill loop of the idle reaper: remove each listed room and immediately
broadcast its `CloseRoom` notice to every connected session. -/
def sweepGo : GameServer G → List RoomId → GameServer G × List (Out V)
  | s, [] => (s, [])
  | s, rid :: rest =>
    let s' : GameServer G := { s with rooms := s.rooms.erase rid }
    let p := sweepGo s' rest
    (p.1, send_global_message s' (Msg.CloseRoom rid) ++ p.2)

/-- The room ids collected by one reaper tick: rooms idle for strictly more
than an hour (`now - room.last_action > Duration::from_secs(60 * 60)`). -/
def killedRooms (s : GameServer G) (now : Nat) : List RoomId :=
  (s.rooms.entries.filter
    (fun e => decide (3600 < now - e.snd.last_action))).map Sigma.fst

/-- One tick of the idle-reaper interval installed by
`GameServer::clear_timer`: rooms idle for strictly more than an hour are
removed and a `CloseRoom` notice is broadcast globally for each. -/
def sweep (s : GameServer G) (now : Nat) : GameServer G × List (Out V) :=
  sweepGo s (killedRooms s now)

/-- Recognizer for a `CloseRoom rid` notice delivered to session `sid`,
used to count reaper notices. -/
def isCloseTo (sid : SessionId) (rid : RoomId) : Out V → Bool
  | (sid', Msg.CloseRoom rid') => sid' == sid && rid' == rid
  | _ => false

/-- A client-or-timer event, for whole-run statements. -/
inductive Op : Type where
  | connect (drawnId : SessionId)
  | disconnect (id : SessionId)
  | join (id : SessionId) (room_id : RoomId)
  | create_room (id : SessionId) (name : String) (now : Nat)
  | game_action (id : SessionId) (room_id : RoomId) (action : WireAction) (now : Nat)
  | identify_as (id : SessionId) (token : Option Token) (nick : Option String)
      (freshToken : Token) (freshUser : UserId)
  | sweep_tick (now : Nat)

/-- One step of the coordinator; the second component is the room id
returned when the event was a successful `CreateRoom`. -/
def step (E : Engine G V) (s : GameServer G) : Op → GameServer G × Option RoomId
  | .connect d => ((handleConnect s d).1, none)
  | .disconnect i => ((handleDisconnect E s i).1, none)
  | .join i r => ((handleJoin E s i r).1, none)
  | .create_room i n t =>
    let p := handleCreateRoom E s i n t
    (p.1, p.2.2)
  | .game_action i r a t => ((handleGameAction E s i r a t).1, none)
  | .identify_as i tok nk ft fu =>
    (((handleIdentifyAs s i tok nk ft fu : GameServer G × List (Out V) × Profile)).1, none)
  | .sweep_tick t => ((sweep s t : GameServer G × List (Out V)).1, none)

/-- Run a sequence of events. -/
def execOps (E : Engine G V) (s : GameServer G) (ops : List Op) : GameServer G :=
  ops.foldl (fun st op => (step E st op).1) s

/-- The room ids handed out by the successful `CreateRoom` events of a run,
in order. -/
def createdIds (E : Engine G V) : GameServer G → List Op → List RoomId
  | _, [] => []
  | s, op :: ops =>
    match (step E s op).2 with
    | some rid => rid :: createdIds E (step E s op).1 ops
    | none => createdIds E (step E s op).1 ops

/-- Trivial engine instance used to evaluate the model on concrete runs. -/
def UE : Engine Unit Unit :=
  { standard := ()
    make_action := fun _ _ g => g
    take_seat := fun _ _ g => g
    leave_seat := fun _ _ g => g
    get_view := fun _ => () }

/-- Concrete run for witnesses: session 1 connects, identifies as user 10
(token draw 5), and creates room 0 ("a") then room 1 ("b"); creating "b"
auto-leaves room 0, so room 0 is empty and room 1 holds session 1. -/
def sEx : GameServer Unit :=
  execOps UE (GameServer.default Unit)
    [Op.connect 1, Op.identify_as 1 none none 5 10,
     Op.create_room 1 "a" 0, Op.create_room 1 "b" 0]

/-- Concrete run with two identified sessions (users 10 and 20) sharing
room 0: session 1 creates the room and session 2 joins it. -/
def sEx2 : GameServer Unit :=
  execOps UE (GameServer.default Unit)
    [Op.connect 1, Op.identify_as 1 none none 5 10,
     Op.connect 2, Op.identify_as 2 none none 6 20,
     Op.create_room 1 "a" 0, Op.join 2 0]

/-- Concrete run with a single fresh (never identified) session 1. -/
def sC : GameServer Unit :=
  execOps UE (GameServer.default Unit) [Op.connect 1]

/-- Concrete run where session 1 identifies twice, first as user 10, then as
user 20, and finally disconnects. -/
def sDX : GameServer Unit :=
  execOps UE (GameServer.default Unit)
    [Op.connect 1, Op.identify_as 1 none none 5 10,
     Op.identify_as 1 none none 6 20, Op.disconnect 1]

/-! Structural lemmas about `leave_room` and the leave loops. -/

/-- Case analysis of `leave_room`: either it is a no-op (and, when the
session exists, the session was not a member of the room), or it rewrites
exactly the target room, erasing the session from the member set and at
most erasing one user from the user set. -/
theorem leave_room_spec (E : Engine G V) (s : GameServer G) (sid : SessionId)
    (rid : RoomId) :
    (leave_room E s sid rid = (s, []) ∧
      ((s.sessions.lookup sid).isSome →
        ∀ room, s.rooms.lookup rid = some room → sid ∉ room.members)) ∨
    ∃ room room',
      s.rooms.lookup rid = some room ∧ sid ∈ room.members ∧
      room'.members = room.members.erase sid ∧
      (room'.users = room.users ∨ ∃ uid, room'.users = room.users.erase uid) ∧
      (leave_room E s sid rid).1 = { s with rooms := s.rooms.insert rid room' } := by
  unfold leave_room
  split
  next heqs =>
    refine Or.inl ⟨rfl, ?_⟩
    intro hs
    rw [heqs] at hs
    simp at hs
  next sess heqs =>
    split
    next heqr =>
      refine Or.inl ⟨rfl, ?_⟩
      intro _ room h
      rw [heqr] at h
      exact Option.noConfusion h
    next room heqr =>
      split
      next hm =>
        split
        next =>
          exact Or.inr ⟨room, { room with members := room.members.erase sid },
            heqr, hm, rfl, Or.inl rfl, rfl⟩
        next uid _ =>
          split
          next =>
            exact Or.inr ⟨room, { room with members := room.members.erase sid },
              heqr, hm, rfl, Or.inl rfl, rfl⟩
          next =>
            exact Or.inr ⟨room,
              { room with members := room.members.erase sid,
                          users := room.users.erase uid },
              heqr, hm, rfl, Or.inr ⟨uid, rfl⟩, rfl⟩
      next hm =>
        refine Or.inl ⟨rfl, ?_⟩
        intro _ room2 h
        rw [heqr] at h
        injection h with h2
        subst h2
        exact hm

/-- Only the `rooms` field of the state is touched by `leave_room`. -/
theorem leave_room_frame (E : Engine G V) (s : GameServer G) (sid : SessionId)
    (rid : RoomId) :
    ((leave_room E s sid rid).1).sessions = s.sessions ∧
    ((leave_room E s sid rid).1).sessions_by_user = s.sessions_by_user ∧
    ((leave_room E s sid rid).1).profiles = s.profiles ∧
    ((leave_room E s sid rid).1).user_tokens = s.user_tokens ∧
    ((leave_room E s sid rid).1).game_counter = s.game_counter := by
  rcases leave_room_spec E s sid rid with ⟨h, -⟩ | ⟨room, room', -, -, -, -, h⟩ <;>
    rw [h] <;> exact ⟨rfl, rfl, rfl, rfl, rfl⟩

/-- Rooms other than the target are untouched by `leave_room`. -/
theorem leave_room_rooms_ne (E : Engine G V) (s : GameServer G)
    (sid : SessionId) (rid : RoomId) {r : RoomId} (h : r ≠ rid) :
    ((leave_room E s sid rid).1).rooms.lookup r = s.rooms.lookup r := by
  rcases leave_room_spec E s sid rid with ⟨heq, -⟩ | ⟨room, room', -, -, -, -, heq⟩ <;>
    rw [heq]
  exact AList.lookup_insert_ne h

/-- After `leave_room` on an existing session, the session is no longer in
the target room's member set. -/
theorem leave_room_not_mem (E : Engine G V) {s : GameServer G}
    {sid : SessionId} (rid : RoomId) (hs : (s.sessions.lookup sid).isSome) :
    ∀ room', ((leave_room E s sid rid).1).rooms.lookup rid = some room' →
      sid ∉ room'.members := by
  intro room' hl
  rcases leave_room_spec E s sid rid with ⟨heq, hno⟩ |
      ⟨room, rm', hr, hm, hmem, -, heq⟩
  · rw [heq] at hl
    exact hno hs room' hl
  · rw [heq] at hl
    rw [AList.lookup_insert] at hl
    cases hl
    rw [hmem]
    exact Finset.not_mem_erase sid room.members

/-- Room existence is preserved by `leave_room`. -/
theorem leave_room_isSome (E : Engine G V) (s : GameServer G)
    (sid : SessionId) (rid : RoomId) (r : RoomId) :
    (((leave_room E s sid rid).1).rooms.lookup r).isSome =
      (s.rooms.lookup r).isSome := by
  rcases leave_room_spec E s sid rid with ⟨heq, -⟩ |
      ⟨room, room', hr, -, -, -, heq⟩
  · rw [heq]
  · rw [heq]
    by_cases hrr : r = rid
    · subst hrr
      rw [AList.lookup_insert, hr]
      rfl
    · rw [AList.lookup_insert_ne hrr]

/-- Member sets only shrink under `leave_room`. -/
theorem leave_room_members_sub (E : Engine G V) (s : GameServer G)
    (sid : SessionId) (rid : RoomId) {r : RoomId} {rm' : Room G}
    (hl : ((leave_room E s sid rid).1).rooms.lookup r = some rm') :
    ∃ rm, s.rooms.lookup r = some rm ∧ rm'.members ⊆ rm.members := by
  rcases leave_room_spec E s sid rid with ⟨heq, -⟩ |
      ⟨room, room', hr, -, hmem, -, heq⟩
  · rw [heq] at hl
    exact ⟨rm', hl, le_refl _⟩
  · rw [heq] at hl
    by_cases hrr : r = rid
    · subst hrr
      rw [AList.lookup_insert] at hl
      cases hl
      refine ⟨room, hr, ?_⟩
      rw [hmem]
      exact Finset.erase_subset sid room.members
    · rw [AList.lookup_insert_ne hrr] at hl
      exact ⟨rm', hl, le_refl _⟩

/-- Characterization of the room-collection loops: a room id is collected
exactly when its room exists and has the session as a member. -/
theorem mem_roomsWith {s : GameServer G} {sid : SessionId} {r : RoomId} :
    r ∈ roomsWith s sid ↔
      ∃ room, s.rooms.lookup r = some room ∧ sid ∈ room.members := by
  constructor
  · intro h
    rcases List.mem_map.1 h with ⟨e, he, rfl⟩
    rcases List.mem_filter.1 he with ⟨hmem, hdec⟩
    refine ⟨e.snd, ?_, of_decide_eq_true hdec⟩
    exact AList.mem_lookup_iff.2 (by rw [Sigma.eta]; exact hmem)
  · rintro ⟨room, hl, hm⟩
    refine List.mem_map.2 ⟨⟨r, room⟩, ?_, rfl⟩
    exact List.mem_filter.2 ⟨AList.mem_lookup_iff.1 hl, decide_eq_true hm⟩

/-- Only the `rooms` field of the state is touched by the leave loop. -/
theorem leaveMany_frame (E : Engine G V) (s : GameServer G) (sid : SessionId)
    (L : List RoomId) :
    ((leaveMany E s sid L).1).sessions = s.sessions ∧
    ((leaveMany E s sid L).1).sessions_by_user = s.sessions_by_user ∧
    ((leaveMany E s sid L).1).profiles = s.profiles ∧
    ((leaveMany E s sid L).1).user_tokens = s.user_tokens ∧
    ((leaveMany E s sid L).1).game_counter = s.game_counter := by
  induction L generalizing s with
  | nil => exact ⟨rfl, rfl, rfl, rfl, rfl⟩
  | cons rid rest ih =>
    have h1 := leave_room_frame E s sid rid
    have h2 := ih (leave_room E s sid rid).1
    simp only [leaveMany]
    exact ⟨h2.1.trans h1.1, h2.2.1.trans h1.2.1, h2.2.2.1.trans h1.2.2.1,
      h2.2.2.2.1.trans h1.2.2.2.1, h2.2.2.2.2.trans h1.2.2.2.2⟩

/-- Rooms not named by the list are untouched by the leave loop. -/
theorem leaveMany_lookup_notin (E : Engine G V) (s : GameServer G)
    (sid : SessionId) (L : List RoomId) {r : RoomId} (h : r ∉ L) :
    ((leaveMany E s sid L).1).rooms.lookup r = s.rooms.lookup r := by
  induction L generalizing s with
  | nil => rfl
  | cons rid rest ih =>
    simp only [leaveMany]
    have hne : r ∉ rest := fun hr => h (List.mem_cons_of_mem rid hr)
    rw [ih (leave_room E s sid rid).1 hne]
    exact leave_room_rooms_ne E s sid rid (fun he => h (he ▸ List.mem_cons_self r rest))

/-- Room existence is preserved by the leave loop. -/
theorem leaveMany_isSome (E : Engine G V) (s : GameServer G) (sid : SessionId)
    (L : List RoomId) (r : RoomId) :
    (((leaveMany E s sid L).1).rooms.lookup r).isSome =
      (s.rooms.lookup r).isSome := by
  induction L generalizing s with
  | nil => rfl
  | cons rid rest ih =>
    simp only [leaveMany]
    rw [ih (leave_room E s sid rid).1]
    exact leave_room_isSome E s sid rid r

/-- A session still a member of some room after the leave loop was already
a member before, and that room was not in the processed list. -/
theorem leaveMany_member_after (E : Engine G V) {s : GameServer G}
    {sid : SessionId} {L : List RoomId}
    (hs : (s.sessions.lookup sid).isSome) {r : RoomId} {room' : Room G}
    (hl : ((leaveMany E s sid L).1).rooms.lookup r = some room')
    (hm : sid ∈ room'.members) :
    (∃ room, s.rooms.lookup r = some room ∧ sid ∈ room.members) ∧ r ∉ L := by
  induction L generalizing s with
  | nil => exact ⟨⟨room', hl, hm⟩, List.not_mem_nil r⟩
  | cons rid rest ih =>
    have hs1 : (((leave_room E s sid rid).1).sessions.lookup sid).isSome := by
      rw [(leave_room_frame E s sid rid).1]
      exact hs
    simp only [leaveMany] at hl
    rcases ih hs1 hl with ⟨⟨room1, hl1, hm1⟩, hrest⟩
    by_cases hrr : r = rid
    · subst hrr
      exact absurd hm1 (leave_room_not_mem E r hs room1 hl1)
    · rw [leave_room_rooms_ne E s sid rid hrr] at hl1
      refine ⟨⟨room1, hl1, hm1⟩, ?_⟩
      intro hmem
      rcases List.mem_cons.1 hmem with h | h
      · exact hrr h
      · exact hrest h

/-- Reduction of `handleJoin` for an identified session. -/
theorem handleJoin_fst (E : Engine G V) (s : GameServer G) (id : SessionId)
    (rid : RoomId) {uid : UserId}
    (hid : (s.sessions.lookup id).bind Session.user_id = some uid) :
    (handleJoin E s id rid).1 =
      (joinInsert E (leaveMany E s id (roomsWith s id)).1 id uid rid).1 := by
  unfold handleJoin
  split
  next heq => rw [hid] at heq; exact Option.noConfusion heq
  next u heq =>
    rw [hid] at heq
    injection heq with h2
    subst h2
    rfl

/-- The room map produced by `joinInsert` when the target room exists. -/
theorem joinInsert_fst_rooms (E : Engine G V) (s1 : GameServer G)
    (id : SessionId) (uid : UserId) (rid : RoomId) {room1 : Room G}
    (h : s1.rooms.lookup rid = some room1) :
    (joinInsert E s1 id uid rid).1.rooms =
      s1.rooms.insert rid
        { room1 with members := insert id room1.members,
                     users := insert uid room1.users } := by
  unfold joinInsert
  split
  next heq => rw [h] at heq; exact Option.noConfusion heq
  next room heq =>
    rw [h] at heq
    injection heq with h2
    subst h2
    rfl

/-- Listing a `HashSet` preserves membership. -/
theorem mem_setList {s : Finset Nat} {x : Nat} : x ∈ setList s ↔ x ∈ s := by
  obtain ⟨l, hl⟩ := Quotient.exists_rep s.val
  have hs : setList s = l.insertionSort (· ≤ ·) := by
    unfold setList
    rw [← hl]
    rfl
  rw [hs, (List.perm_insertionSort _ l).mem_iff, Finset.mem_def, ← hl]
  exact Iff.rfl

/-- `joinInsert` touches only the `rooms` field. -/
theorem joinInsert_frame (E : Engine G V) (s1 : GameServer G) (id : SessionId)
    (uid : UserId) (rid : RoomId) :
    (joinInsert E s1 id uid rid).1.sessions = s1.sessions ∧
    (joinInsert E s1 id uid rid).1.sessions_by_user = s1.sessions_by_user ∧
    (joinInsert E s1 id uid rid).1.profiles = s1.profiles ∧
    (joinInsert E s1 id uid rid).1.user_tokens = s1.user_tokens ∧
    (joinInsert E s1 id uid rid).1.game_counter = s1.game_counter := by
  unfold joinInsert
  split <;> exact ⟨rfl, rfl, rfl, rfl, rfl⟩

/-- `removeSession` touches only `sessions` and `sessions_by_user`. -/
theorem removeSession_frame (s : GameServer G) (id : SessionId) :
    (removeSession s id).profiles = s.profiles ∧
    (removeSession s id).user_tokens = s.user_tokens ∧
    (removeSession s id).rooms = s.rooms ∧
    (removeSession s id).game_counter = s.game_counter := by
  unfold removeSession
  (repeat' split) <;> exact ⟨rfl, rfl, rfl, rfl⟩

/-- `bindSession` touches only the `sessions` field. -/
theorem bindSession_frame (s : GameServer G) (id : SessionId) (u : UserId) :
    (bindSession s id u).sessions_by_user = s.sessions_by_user ∧
    (bindSession s id u).profiles = s.profiles ∧
    (bindSession s id u).user_tokens = s.user_tokens ∧
    (bindSession s id u).rooms = s.rooms ∧
    (bindSession s id u).game_counter = s.game_counter := by
  unfold bindSession
  split <;> exact ⟨rfl, rfl, rfl, rfl, rfl⟩

/-- `bindSession` on an existing session overwrites its bound user id. -/
theorem bindSession_some (s : GameServer G) (id : SessionId) (u : UserId)
    {sess : Session} (h : s.sessions.lookup id = some sess) :
    bindSession s id u =
      { s with sessions := s.sessions.insert id ⟨some u⟩ } := by
  unfold bindSession
  split
  next sess' heq => rfl
  next heq => rw [h] at heq; exact Option.noConfusion heq

/-- `gameActionTouch` touches only the `rooms` field. -/
theorem gameActionTouch_frame (E : Engine G V) (s : GameServer G)
    (uid : UserId) (rid : RoomId) (a : WireAction) (now : Nat) :
    (gameActionTouch E s uid rid a now).sessions = s.sessions ∧
    (gameActionTouch E s uid rid a now).sessions_by_user = s.sessions_by_user ∧
    (gameActionTouch E s uid rid a now).profiles = s.profiles ∧
    (gameActionTouch E s uid rid a now).user_tokens = s.user_tokens ∧
    (gameActionTouch E s uid rid a now).game_counter = s.game_counter := by
  unfold gameActionTouch
  split <;> exact ⟨rfl, rfl, rfl, rfl, rfl⟩

/-- `gameActionTouch` on an existing room stamps the time and applies the
engine call. -/
theorem gameActionTouch_some (E : Engine G V) (s : GameServer G)
    (uid : UserId) (rid : RoomId) (a : WireAction) (now : Nat) {room : Room G}
    (h : s.rooms.lookup rid = some room) :
    gameActionTouch E s uid rid a now =
      { s with rooms := s.rooms.insert rid { room with last_action := now, game := applyWire E uid a room.game } } := by
  unfold gameActionTouch
  split
  next room' heq =>
    rw [h] at heq
    injection heq with h2
    subst h2
    rfl
  next heq => rw [h] at heq; exact Option.noConfusion heq

/-- Reduction of `handleGameAction` for an identified session. -/
theorem handleGameAction_some (E : Engine G V) (s : GameServer G)
    (id : SessionId) (rid : RoomId) (a : WireAction) (now : Nat) {uid : UserId}
    (hid : (s.sessions.lookup id).bind Session.user_id = some uid) :
    handleGameAction E s id rid a now =
      (gameActionTouch E s uid rid a now,
        gameActionMsgs E (gameActionTouch E s uid rid a now) rid) := by
  unfold handleGameAction
  split
  next heq => rw [hid] at heq; exact Option.noConfusion heq
  next u heq =>
    rw [hid] at heq
    injection heq with h2
    subst h2
    rfl

/-- Reduction of `gameActionMsgs` when the room exists. -/
theorem gameActionMsgs_some (E : Engine G V) (s1 : GameServer G)
    (rid : RoomId) {room : Room G} (h : s1.rooms.lookup rid = some room) :
    gameActionMsgs E s1 rid = send_room_message s1 rid (statusMsg E rid room) := by
  unfold gameActionMsgs
  split
  next room' heq =>
    rw [h] at heq
    injection heq with h2
    subst h2
    rfl
  next heq => rw [h] at heq; exact Option.noConfusion heq

/-- Room-broadcast delivery: each member with a live session receives the
message. -/
theorem mem_send_room_message (s : GameServer G) (rid : RoomId) (m : Msg V)
    {sid : SessionId} {room : Room G} (h : s.rooms.lookup rid = some room)
    (hm : sid ∈ room.members) (hs : (s.sessions.lookup sid).isSome) :
    (sid, m) ∈ send_room_message s rid m := by
  unfold send_room_message
  rw [h]
  refine List.mem_filterMap.2 ⟨sid, mem_setList.2 hm, ?_⟩
  rw [hs]
  simp

/-- C1: after an identified session joins an existing room, the session is
a member of the target room (and its user id is in the target room's
distinct-user set), and of no other room: the join removed it from every
other room it previously occupied. -/
theorem join_membership_consistent (E : Engine G V) (s : GameServer G)
    (id : SessionId) (uid : UserId) (rid : RoomId) (room : Room G)
    (hid : (s.sessions.lookup id).bind Session.user_id = some uid)
    (hroom : s.rooms.lookup rid = some room) :
    (∃ room', ((handleJoin E s id rid).1).rooms.lookup rid = some room' ∧
      id ∈ room'.members ∧ uid ∈ room'.users) ∧
    ∀ r room', r ≠ rid →
      ((handleJoin E s id rid).1).rooms.lookup r = some room' →
      id ∉ room'.members := by
  have hs : (s.sessions.lookup id).isSome := by
    cases h : s.sessions.lookup id with
    | none => rw [h] at hid; exact Option.noConfusion hid
    | some sess => rfl
  obtain ⟨room1, heqr⟩ :
      ∃ room1, (leaveMany E s id (roomsWith s id)).1.rooms.lookup rid = some room1 := by
    have hps := leaveMany_isSome E s id (roomsWith s id) rid
    rw [hroom] at hps
    exact Option.isSome_iff_exists.1 (by rw [hps]; rfl)
  rw [handleJoin_fst E s id rid hid, joinInsert_fst_rooms E _ id uid rid heqr]
  constructor
  · exact ⟨_, AList.lookup_insert _, Finset.mem_insert_self id _,
      Finset.mem_insert_self uid _⟩
  · intro r room' hne hl
    rw [AList.lookup_insert_ne hne] at hl
    intro hmem
    rcases leaveMany_member_after E hs hl hmem with ⟨⟨room0, hl0, hm0⟩, hnotin⟩
    exact hnotin (mem_roomsWith.2 ⟨room0, hl0, hm0⟩)

/-- Witness for C1: in the concrete run `sEx`, session 1 (identified as
user 10, currently in room 1) joins room 0 and ends up in exactly room 0. -/
theorem join_membership_consistent_witness :
    ((sEx.sessions.lookup 1).bind Session.user_id = some 10) ∧
    (sEx.rooms.lookup 0 = some ⟨∅, ∅, "a", 0, ()⟩) ∧
    ((∃ room', ((handleJoin UE sEx 1 0).1).rooms.lookup 0 = some room' ∧
        1 ∈ room'.members ∧ 10 ∈ room'.users) ∧
      ∀ r room', r ≠ 0 →
        ((handleJoin UE sEx 1 0).1).rooms.lookup r = some room' →
        1 ∉ room'.members) :=
  ⟨by decide, by decide,
    join_membership_consistent UE sEx 1 10 0 ⟨∅, ∅, "a", 0, ()⟩
      (by decide) (by decide)⟩

/-- C9: `connect` always stores a fresh anonymous session under the drawn
random id and returns that id; when the drawn id collides with an existing
session the old entry is silently replaced (no uniqueness check), while all
other session entries are untouched. -/
theorem connect_replaces_session (s : GameServer G) (drawnId : SessionId)
    (old : Session) (hold : s.sessions.lookup drawnId = some old) :
    (handleConnect s drawnId).2 = drawnId ∧
    ((handleConnect s drawnId).1).sessions.lookup drawnId = some ⟨none⟩ ∧
    ∀ x, x ≠ drawnId →
      ((handleConnect s drawnId).1).sessions.lookup x = s.sessions.lookup x := by
  refine ⟨rfl, AList.lookup_insert _, ?_⟩
  intro x hx
  exact AList.lookup_insert_ne hx

/-- Witness for C9: drawing the id 1 already used by the identified session
of `sEx` replaces that session's entry with the anonymous one. -/
theorem connect_replaces_session_witness :
    (sEx.sessions.lookup 1 = some ⟨some 10⟩) ∧
    ((handleConnect sEx 1).2 = 1 ∧
      ((handleConnect sEx 1).1).sessions.lookup 1 = some ⟨none⟩ ∧
      ∀ x, x ≠ 1 →
        ((handleConnect sEx 1).1).sessions.lookup x = sEx.sessions.lookup x) :=
  ⟨by decide, connect_replaces_session sEx 1 ⟨some 10⟩ (by decide)⟩

/-- C2 (amended): unidentified intents and game actions to unknown rooms
are dropped without any state change or message; a `Join` by an identified
session naming an unknown room, however, is not atomic (it still removes
the session from its previous rooms before the room lookup fails). -/
theorem structural_failures_dropped (E : Engine G V) (s : GameServer G)
    (id : SessionId) (rid : RoomId) (a : WireAction) (now : Nat)
    (name : String) :
    ((s.sessions.lookup id).bind Session.user_id = none →
      handleGameAction E s id rid a now = (s, []) ∧
      handleJoin E s id rid = (s, []) ∧
      handleCreateRoom E s id name now = (s, [], none)) ∧
    (s.rooms.lookup rid = none →
      handleGameAction E s id rid a now = (s, [])) := by
  constructor
  · intro h
    refine ⟨?_, ?_, ?_⟩
    · unfold handleGameAction
      split
      next => rfl
      next u heq => rw [h] at heq; exact Option.noConfusion heq
    · unfold handleJoin
      split
      next => rfl
      next u heq => rw [h] at heq; exact Option.noConfusion heq
    · unfold handleCreateRoom
      split
      next => rfl
      next u heq => rw [h] at heq; exact Option.noConfusion heq
  · intro h
    unfold handleGameAction
    split
    next => rfl
    next u heq =>
      have ht : gameActionTouch E s u rid a now = s := by
        unfold gameActionTouch
        split
        next room heq2 => rw [h] at heq2; exact Option.noConfusion heq2
        next => rfl
      have hm : gameActionMsgs E s rid = [] := by
        unfold gameActionMsgs
        split
        next room heq2 => rw [h] at heq2; exact Option.noConfusion heq2
        next => rfl
      show (gameActionTouch E s u rid a now,
        gameActionMsgs E (gameActionTouch E s u rid a now) rid) = (s, [])
      rw [ht, hm]

/-- Witness for C2 (amended): in `sEx` the unknown session 7 and, for game
actions, the unknown room 99 are both dropped without effect. -/
theorem structural_failures_dropped_witness :
    ((sEx.sessions.lookup 7).bind Session.user_id = none) ∧
    (handleGameAction UE sEx 7 0 WireAction.Pass 5 = (sEx, []) ∧
      handleJoin UE sEx 7 0 = (sEx, []) ∧
      handleCreateRoom UE sEx 7 "x" 5 = (sEx, [], none)) ∧
    (sEx.rooms.lookup 99 = none) ∧
    handleGameAction UE sEx 1 99 WireAction.Pass 5 = (sEx, []) :=
  ⟨by decide,
    (structural_failures_dropped UE sEx 7 0 WireAction.Pass 5 "x").1 (by decide),
    by decide,
    (structural_failures_dropped UE sEx 1 99 WireAction.Pass 5 "x").2 (by decide)⟩

/-- Counterexample for C2 as stated: in `sEx2` (sessions 1 and 2 of users
10 and 20 share room 0), a `Join` from the identified session 2 naming the
nonexistent room 99 both mutates the state (session 2 and user 20 are
removed from room 0) and sends a `GameStatus` message to the other session
1, contradicting atomicity of structural failures. -/
theorem structural_failures_dropped_cex :
    (sEx2.rooms.lookup 99 = none) ∧
    ((sEx2.sessions.lookup 2).bind Session.user_id = some 20) ∧
    (handleJoin UE sEx2 2 99).1.rooms.lookup 0 ≠ sEx2.rooms.lookup 0 ∧
    (1, Msg.GameStatus 0 [10] ()) ∈ (handleJoin UE sEx2 2 99).2 := by
  refine ⟨by decide, by decide, by decide, by decide⟩

/-- C3: a game action from an identified session on an existing room always
stamps the room's last-activity timestamp with the current time and sends
the room's fresh `GameStatus` view to every member session of the room,
whether or not the engine call changed the game (the engine `E` and the
action are universally quantified, so this covers success and failure). -/
theorem game_action_activity_and_broadcast (E : Engine G V) (s : GameServer G)
    (id : SessionId) (uid : UserId) (rid : RoomId) (room : Room G)
    (a : WireAction) (now : Nat)
    (hid : (s.sessions.lookup id).bind Session.user_id = some uid)
    (hroom : s.rooms.lookup rid = some room) :
    ∃ room', ((handleGameAction E s id rid a now).1).rooms.lookup rid = some room' ∧
      room'.last_action = now ∧
      room'.members = room.members ∧
      room'.game = applyWire E uid a room.game ∧
      ∀ m ∈ room.members, (s.sessions.lookup m).isSome →
        (m, statusMsg E rid room') ∈ (handleGameAction E s id rid a now).2 := by
  rw [handleGameAction_some E s id rid a now hid,
    gameActionTouch_some E s uid rid a now hroom]
  refine ⟨_, AList.lookup_insert _, rfl, rfl, rfl, ?_⟩
  intro m hm hs
  have hl1 : ({ s with rooms := s.rooms.insert rid { room with last_action := now, game := applyWire E uid a room.game } } : GameServer G).rooms.lookup rid = some { room with last_action := now, game := applyWire E uid a room.game } :=
    AList.lookup_insert _
  rw [gameActionMsgs_some E _ rid hl1]
  exact mem_send_room_message _ rid _ hl1 hm hs

/-- Witness for C3: in `sEx`, session 1 (user 10) passes in room 1 at time
5; the room is stamped and member 1 receives the fresh view. -/
theorem game_action_activity_and_broadcast_witness :
    ((sEx.sessions.lookup 1).bind Session.user_id = some 10) ∧
    (sEx.rooms.lookup 1 = some ⟨{1}, {10}, "b", 0, ()⟩) ∧
    ∃ room', ((handleGameAction UE sEx 1 1 WireAction.Pass 5).1).rooms.lookup 1 = some room' ∧
      room'.last_action = 5 ∧
      room'.members = ({1} : Finset Nat) ∧
      room'.game = applyWire UE 10 WireAction.Pass () ∧
      ∀ m ∈ ({1} : Finset Nat), (sEx.sessions.lookup m).isSome →
        (m, statusMsg UE 1 room') ∈ (handleGameAction UE sEx 1 1 WireAction.Pass 5).2 :=
  ⟨by decide, by decide,
    game_action_activity_and_broadcast UE sEx 1 10 1 ⟨{1}, {10}, "b", 0, ()⟩
      WireAction.Pass 5 (by decide) (by decide)⟩

/-- The `any`-check of `leave_room` holds exactly when some remaining
member session is bound to the user. -/
theorem userStillPresent_iff {s : GameServer G} {members : Finset SessionId}
    {uid : UserId} :
    userStillPresent s members uid = true ↔
      ∃ m ∈ members, ∃ t, s.sessions.lookup m = some t ∧ t.user_id = some uid := by
  unfold userStillPresent
  rw [List.any_eq_true]
  constructor
  · rintro ⟨m, hm, hb⟩
    refine ⟨m, mem_setList.1 hm, ?_⟩
    cases h : s.sessions.lookup m with
    | none => rw [h] at hb; exact Bool.noConfusion hb
    | some t =>
      rw [h] at hb
      exact ⟨t, rfl, eq_of_beq hb⟩
  · rintro ⟨m, hm, t, ht, hu⟩
    refine ⟨m, mem_setList.2 hm, ?_⟩
    rw [ht]
    exact beq_iff_eq.2 hu

/-- C7: a session leaving a room it is a member of is removed from the
member set; the user id is removed from the distinct-user set, and the room
view re-broadcast to the remaining members, exactly when no other member
session is bound to the same user. -/
theorem leave_room_user_removal (E : Engine G V) (s : GameServer G)
    (sid : SessionId) (rid : RoomId) (uid : UserId) (room : Room G)
    (hsess : s.sessions.lookup sid = some ⟨some uid⟩)
    (hroom : s.rooms.lookup rid = some room)
    (hm : sid ∈ room.members) :
    ∃ room', ((leave_room E s sid rid).1).rooms.lookup rid = some room' ∧
      room'.members = room.members.erase sid ∧
      ((∃ m ∈ room.members.erase sid, ∃ t, s.sessions.lookup m = some t ∧ t.user_id = some uid) →
        room'.users = room.users ∧ (leave_room E s sid rid).2 = []) ∧
      ((¬ ∃ m ∈ room.members.erase sid, ∃ t, s.sessions.lookup m = some t ∧ t.user_id = some uid) →
        room'.users = room.users.erase uid ∧ uid ∉ room'.users ∧
        (leave_room E s sid rid).2 =
          send_room_message (leave_room E s sid rid).1 rid (statusMsg E rid room')) := by
  unfold leave_room
  split
  next heq => rw [hsess] at heq; exact Option.noConfusion heq
  next sess heq =>
    rw [hsess] at heq
    injection heq with h2
    subst h2
    split
    next heqr => rw [hroom] at heqr; exact Option.noConfusion heqr
    next room0 heqr =>
      rw [hroom] at heqr
      injection heqr with h3
      subst h3
      rw [if_pos hm]
      split
      next hu => exact Option.noConfusion hu
      next u hu =>
        injection hu with h4
        subst h4
        by_cases hp : userStillPresent s (room.members.erase sid) uid = true
        · rw [if_pos hp]
          refine ⟨_, AList.lookup_insert _, rfl, ?_, ?_⟩
          · intro _; exact ⟨rfl, rfl⟩
          · intro hno; exact absurd (userStillPresent_iff.1 hp) hno
        · rw [if_neg hp]
          refine ⟨_, AList.lookup_insert _, rfl, ?_, ?_⟩
          · intro hyes; exact absurd (userStillPresent_iff.2 hyes) hp
          · intro _
            exact ⟨rfl, Finset.not_mem_erase uid room.users, rfl⟩

/-- Witness for C7: in `sEx2` session 2 (user 20) leaves room 0; session 1
belongs to user 10, so user 20 is also removed from the room's user set. -/
theorem leave_room_user_removal_witness :
    (sEx2.sessions.lookup 2 = some ⟨some 20⟩) ∧
    (sEx2.rooms.lookup 0 = some ⟨{2, 1}, {20, 10}, "a", 0, ()⟩) ∧
    ((2 : Nat) ∈ ({2, 1} : Finset Nat)) ∧
    ∃ room', ((leave_room UE sEx2 2 0).1).rooms.lookup 0 = some room' ∧
      room'.members = ({2, 1} : Finset Nat).erase 2 ∧
      ((∃ m ∈ ({2, 1} : Finset Nat).erase 2, ∃ t, sEx2.sessions.lookup m = some t ∧ t.user_id = some 20) →
        room'.users = ({20, 10} : Finset Nat) ∧ (leave_room UE sEx2 2 0).2 = []) ∧
      ((¬ ∃ m ∈ ({2, 1} : Finset Nat).erase 2, ∃ t, sEx2.sessions.lookup m = some t ∧ t.user_id = some 20) →
        room'.users = ({20, 10} : Finset Nat).erase 20 ∧ 20 ∉ room'.users ∧
        (leave_room UE sEx2 2 0).2 =
          send_room_message (leave_room UE sEx2 2 0).1 0 (statusMsg UE 0 room')) :=
  ⟨by decide, by decide, by decide,
    leave_room_user_removal UE sEx2 2 0 20 ⟨{2, 1}, {20, 10}, "a", 0, ()⟩
      (by decide) (by decide) (by decide)⟩

/-- Characterization of `removeSession` on an existing session: the
session entry is erased, and the currently bound user's session list no
longer contains the id. -/
theorem removeSession_spec (s : GameServer G) (id : SessionId) {sess : Session}
    (h : s.sessions.lookup id = some sess) :
    (removeSession s id).sessions = s.sessions.erase id ∧
    (∀ uid, sess.user_id = some uid →
      ∀ l, (removeSession s id).sessions_by_user.lookup uid = some l → id ∉ l) := by
  unfold removeSession
  split
  next heq => rw [h] at heq; exact Option.noConfusion heq
  next sess0 heq =>
    rw [h] at heq
    injection heq with h2
    subst h2
    split
    next hu =>
      refine ⟨rfl, ?_⟩
      intro uid huid l hl
      rw [hu] at huid
      exact Option.noConfusion huid
    next uid hu =>
      split
      next hsbu =>
        refine ⟨rfl, ?_⟩
        intro uid' huid' l hl
        rw [hu] at huid'
        injection huid' with h3
        subst h3
        rw [hsbu] at hl
        exact Option.noConfusion hl
      next l0 hsbu =>
        refine ⟨rfl, ?_⟩
        intro uid' huid' l hl
        rw [hu] at huid'
        injection huid' with h3
        subst h3
        rw [AList.lookup_insert] at hl
        injection hl with h4
        subst h4
        intro hmem
        have hdec := List.of_mem_filter hmem
        simp at hdec

/-- C6 (amended): disconnecting an existing session removes it from every
room's member set, deletes its session entry, and removes its id from the
session list of the user it is currently bound to; ids may persist in the
session lists of users the session was formerly bound to. -/
theorem disconnect_removes_session (E : Engine G V) (s : GameServer G)
    (id : SessionId) (sess : Session)
    (hsess : s.sessions.lookup id = some sess) :
    ((handleDisconnect E s id).1.sessions.lookup id = none) ∧
    (∀ r room', (handleDisconnect E s id).1.rooms.lookup r = some room' →
      id ∉ room'.members) ∧
    (∀ uid, sess.user_id = some uid →
      ∀ l, (handleDisconnect E s id).1.sessions_by_user.lookup uid = some l →
        id ∉ l) := by
  have e1 : (handleDisconnect E s id).1 =
      removeSession (leaveMany E s id (roomsWith s id)).1 id := rfl
  rw [e1]
  have hlook : ((leaveMany E s id (roomsWith s id)).1).sessions.lookup id = some sess := by
    rw [(leaveMany_frame E s id (roomsWith s id)).1]
    exact hsess
  obtain ⟨hera, hsbu⟩ := removeSession_spec _ id hlook
  refine ⟨?_, ?_, hsbu⟩
  · rw [hera]
    exact AList.lookup_erase id _
  · intro r room' hl hmem
    have hl1 : ((leaveMany E s id (roomsWith s id)).1).rooms.lookup r = some room' := by
      rw [← (removeSession_frame _ id).2.2.1]
      exact hl
    have hsome : (s.sessions.lookup id).isSome := by rw [hsess]; rfl
    rcases leaveMany_member_after E hsome hl1 hmem with ⟨⟨room0, hl0, hm0⟩, hnotin⟩
    exact hnotin (mem_roomsWith.2 ⟨room0, hl0, hm0⟩)

/-- Witness for C6 (amended): disconnecting session 2 of `sEx2` empties its
entries everywhere it is currently recorded. -/
theorem disconnect_removes_session_witness :
    (sEx2.sessions.lookup 2 = some ⟨some 20⟩) ∧
    ((handleDisconnect UE sEx2 2).1.sessions.lookup 2 = none) ∧
    (∀ r room', (handleDisconnect UE sEx2 2).1.rooms.lookup r = some room' →
      2 ∉ room'.members) ∧
    (∀ uid, (⟨some 20⟩ : Session).user_id = some uid →
      ∀ l, (handleDisconnect UE sEx2 2).1.sessions_by_user.lookup uid = some l →
        2 ∉ l) :=
  ⟨by decide, disconnect_removes_session UE sEx2 2 ⟨some 20⟩ (by decide)⟩

/-- Counterexample for C6 as stated: session 1 identifies as user 10, then
re-identifies as user 20, then disconnects. The disconnect erases the
session entry and cleans user 20's list, but session id 1 is still present
in user 10's session list — it does not disappear from the whole state. -/
theorem disconnect_removes_session_cex :
    (sDX.sessions.lookup 1 = none) ∧
    (sDX.sessions_by_user.lookup 20 = some []) ∧
    (sDX.sessions_by_user.lookup 10 = some [1]) := by
  refine ⟨by decide, by decide, by decide⟩

/-- Token resolution: a recognized token maps to its existing user id. -/
theorem resolveUser_known {s : GameServer G} {tok : Token} {u : UserId}
    (fu : UserId) (h : s.user_tokens.lookup tok = some u) :
    resolveUser s tok fu = (u, s.user_tokens) := by
  unfold resolveUser
  rw [h]

/-- Token resolution: an unrecognized token mints the fresh user id and
records the binding. -/
theorem resolveUser_fresh {s : GameServer G} {tok : Token} (fu : UserId)
    (h : s.user_tokens.lookup tok = none) :
    resolveUser s tok fu = (fu, s.user_tokens.insert tok fu) := by
  unfold resolveUser
  rw [h]

/-- User-broadcast delivery: the message reaches exactly the live sessions
among the user's current session list. -/
theorem mem_send_user_message {s : GameServer G} {u : UserId} {m : Msg V}
    {sid : SessionId} :
    (sid, m) ∈ send_user_message s u m ↔
      sid ∈ (s.sessions_by_user.lookup u).getD [] ∧
        (s.sessions.lookup sid).isSome := by
  unfold send_user_message
  cases h : s.sessions_by_user.lookup u with
  | none => simp
  | some sids =>
    simp only [Option.getD_some]
    rw [List.mem_filterMap]
    constructor
    · rintro ⟨a, ha, hfa⟩
      by_cases hs : (s.sessions.lookup a).isSome
      · rw [if_pos hs] at hfa
        injection hfa with h2
        rw [Prod.mk.injEq] at h2
        obtain ⟨h3, -⟩ := h2
        subst h3
        exact ⟨ha, hs⟩
      · rw [if_neg hs] at hfa
        exact Option.noConfusion hfa
    · rintro ⟨hmem, hs⟩
      refine ⟨sid, hmem, ?_⟩
      rw [if_pos hs]

/-- Projections of `handleIdentifyAs`: the returned profile. -/
theorem handleIdentifyAs_profile (s : GameServer G) (id : SessionId)
    (token : Option Token) (nick : Option String) (ft : Token) (fu : UserId) :
    (handleIdentifyAs (V := V) s id token nick ft fu).2.2 =
      resolvedProfile s (resolveUser s (token.getD ft) fu).1 (token.getD ft) nick := rfl

/-- Projections of `handleIdentifyAs`: the session-list map after the push. -/
theorem handleIdentifyAs_sbu (s : GameServer G) (id : SessionId)
    (token : Option Token) (nick : Option String) (ft : Token) (fu : UserId) :
    (handleIdentifyAs (V := V) s id token nick ft fu).1.sessions_by_user =
      s.sessions_by_user.insert (resolveUser s (token.getD ft) fu).1
        (((s.sessions_by_user.lookup (resolveUser s (token.getD ft) fu).1).getD []) ++ [id]) :=
  (bindSession_frame _ id _).1

/-- Projections of `handleIdentifyAs`: the token map after resolution. -/
theorem handleIdentifyAs_user_tokens (s : GameServer G) (id : SessionId)
    (token : Option Token) (nick : Option String) (ft : Token) (fu : UserId) :
    (handleIdentifyAs (V := V) s id token nick ft fu).1.user_tokens =
      (resolveUser s (token.getD ft) fu).2 :=
  (bindSession_frame _ id _).2.2.1

/-- Projections of `handleIdentifyAs`: the session map after rebinding an
existing session. -/
theorem handleIdentifyAs_sessions (s : GameServer G) (id : SessionId)
    (token : Option Token) (nick : Option String) (ft : Token) (fu : UserId)
    {sess : Session} (hsess : s.sessions.lookup id = some sess) :
    (handleIdentifyAs (V := V) s id token nick ft fu).1.sessions =
      s.sessions.insert id ⟨some (resolveUser s (token.getD ft) fu).1⟩ :=
  congrArg GameServer.sessions
    (bindSession_some (identMid s id (token.getD ft) nick fu) id
      (resolveUser s (token.getD ft) fu).1 hsess)

/-- Elements of a room broadcast carry exactly the broadcast message. -/
theorem snd_of_mem_send_room_message {s : GameServer G} {rid : RoomId}
    {m : Msg V} {x : Out V} (h : x ∈ send_room_message s rid m) : x.2 = m := by
  unfold send_room_message at h
  split at h
  next => exact absurd h (List.not_mem_nil x)
  next r heq =>
    rcases List.mem_filterMap.1 h with ⟨a, ha, hfa⟩
    by_cases hs : (s.sessions.lookup a).isSome
    · rw [if_pos hs] at hfa
      injection hfa with h2
      rw [← h2]
    · rw [if_neg hs] at hfa
      exact Option.noConfusion hfa

/-- Splitting membership in an accumulating fold of appended sends. -/
theorem mem_foldl_append {α β : Type} (f : β → List α) (L : List β)
    (init : List α) {x : α}
    (h : x ∈ L.foldl (fun acc b => acc ++ f b) init) :
    x ∈ init ∨ ∃ b ∈ L, x ∈ f b := by
  induction L generalizing init with
  | nil => exact Or.inl h
  | cons b rest ih =>
    rcases ih (init ++ f b) h with hi | ⟨b', hb', hx⟩
    · rcases List.mem_append.1 hi with hi | hi
      · exact Or.inl hi
      · exact Or.inr ⟨b, List.mem_cons_self b rest, hi⟩
    · exact Or.inr ⟨b', List.mem_cons_of_mem b hb', hx⟩

/-- The emitted identify messages decompose as the `Identify` push to the
user's pre-request session list followed by a tail of room `UpdateProfile`
broadcasts, which contains no `Identify` message. -/
theorem handleIdentifyAs_msgs (s : GameServer G) (id : SessionId)
    (token : Option Token) (nick : Option String) (ft : Token) (fu : UserId) :
    ∃ tail, (handleIdentifyAs (V := V) s id token nick ft fu).2.1 =
      send_user_message s (resolveUser s (token.getD ft) fu).1
        (Msg.Identify (resolvedProfile s (resolveUser s (token.getD ft) fu).1 (token.getD ft) nick)) ++ tail ∧
      ∀ x ∈ tail, ∀ p : Profile, x.2 ≠ Msg.Identify p := by
  refine ⟨_, rfl, ?_⟩
  intro x hx p hcon
  rcases mem_foldl_append _ _ _ hx with h6 | ⟨rid, -, h6⟩
  · exact absurd h6 (List.not_mem_nil x)
  · have h7 := snd_of_mem_send_room_message h6
    rw [hcon] at h7
    exact Msg.noConfusion h7

/-- C4 (amended): identify resolves an unrecognized (or absent) token by
minting the fresh user id and recording the fresh token, and resolves a
recognized token to its existing user id; the resolved profile is the
handler's result, and it is pushed as an `Identify` message to precisely
the live sessions in the user's session list as it stood before the
request — which includes the requesting session only if it was already
bound to that user. -/
theorem identify_resolution_and_push (s : GameServer G) (id : SessionId)
    (token : Option Token) (nick : Option String) (ft : Token) (fu : UserId) :
    (∀ u, s.user_tokens.lookup (token.getD ft) = some u →
      (resolveUser s (token.getD ft) fu).1 = u) ∧
    (s.user_tokens.lookup (token.getD ft) = none →
      (resolveUser s (token.getD ft) fu).1 = fu ∧
      (handleIdentifyAs (V := V) s id token nick ft fu).1.user_tokens.lookup (token.getD ft) = some fu) ∧
    ((handleIdentifyAs (V := V) s id token nick ft fu).2.2 =
      resolvedProfile s (resolveUser s (token.getD ft) fu).1 (token.getD ft) nick) ∧
    (∃ tail, (handleIdentifyAs (V := V) s id token nick ft fu).2.1 =
      send_user_message s (resolveUser s (token.getD ft) fu).1 (Msg.Identify (resolvedProfile s (resolveUser s (token.getD ft) fu).1 (token.getD ft) nick)) ++ tail ∧
      ∀ x ∈ tail, ∀ p : Profile, x.2 ≠ Msg.Identify p) ∧
    (∀ sid' : SessionId,
      (sid', Msg.Identify (resolvedProfile s (resolveUser s (token.getD ft) fu).1 (token.getD ft) nick)) ∈
        (send_user_message s (resolveUser s (token.getD ft) fu).1 (Msg.Identify (resolvedProfile s (resolveUser s (token.getD ft) fu).1 (token.getD ft) nick)) : List (Out V)) ↔
      sid' ∈ (s.sessions_by_user.lookup (resolveUser s (token.getD ft) fu).1).getD [] ∧
        (s.sessions.lookup sid').isSome) := by
  refine ⟨?_, ?_, handleIdentifyAs_profile s id token nick ft fu,
    handleIdentifyAs_msgs s id token nick ft fu,
    fun sid' => mem_send_user_message⟩
  · intro u h
    rw [resolveUser_known fu h]
  · intro h
    refine ⟨?_, ?_⟩
    · rw [resolveUser_fresh fu h]
    · rw [handleIdentifyAs_user_tokens s id token nick ft fu,
        resolveUser_fresh fu h]
      exact AList.lookup_insert _

/-- Witness for C4 (amended): in `sEx` a recognized token resolves to the
existing user 10, whose already-bound session 1 receives the Identify push;
in `sC` an absent token mints user 10 under a fresh token. -/
theorem identify_resolution_and_push_witness :
    (sEx.user_tokens.lookup ((some 5 : Option Token).getD 99) = some 10) ∧
    ((resolveUser sEx ((some 5 : Option Token).getD 99) 77).1 = 10) ∧
    (sC.user_tokens.lookup ((none : Option Token).getD 5) = none) ∧
    ((resolveUser sC ((none : Option Token).getD 5) 10).1 = 10 ∧
      (handleIdentifyAs (V := Unit) sC 1 none none 5 10).1.user_tokens.lookup ((none : Option Token).getD 5) = some 10) ∧
    (1, Msg.Identify ⟨10, 5, none⟩) ∈ (handleIdentifyAs (V := Unit) sEx 1 (some 5) none 99 77).2.1 :=
  ⟨by decide,
    (identify_resolution_and_push (V := Unit) sEx 1 (some 5) none 99 77).1 10 (by decide),
    by decide,
    (identify_resolution_and_push (V := Unit) sC 1 none none 5 10).2.1 (by decide),
    by decide⟩

/-- Counterexample for C4 as stated: a fresh session 1 identifies for the
first time (no token). The profile is minted and returned, but the message
list is empty, so no `Identify` message is pushed to the requesting
session — the push loop runs before the session id is added to the user's
session list. -/
theorem identify_resolution_and_push_cex :
    ((sC.sessions.lookup 1).isSome) ∧
    ((handleIdentifyAs (V := Unit) sC 1 none none 5 10).2.2 = ⟨10, 5, none⟩) ∧
    ((handleIdentifyAs (V := Unit) sC 1 none none 5 10).2.1 = []) :=
  ⟨by decide, by decide, by decide⟩

/-- C10: identify never detaches a session from a previously resolved user:
the session id is appended to the resolved user's session list (appending a
duplicate when already present), every other user's session list — in
particular the previously bound user's — is untouched, the session is
rebound, and a later user-message to the old user is still delivered to
this session. -/
theorem identify_never_detaches (s : GameServer G) (id : SessionId)
    (token : Option Token) (nick : Option String) (ft : Token) (fu : UserId)
    (A : UserId) (sess : Session)
    (hsess : s.sessions.lookup id = some sess)
    (hA : A ≠ (resolveUser s (token.getD ft) fu).1) :
    ((handleIdentifyAs (V := V) s id token nick ft fu).1.sessions_by_user.lookup (resolveUser s (token.getD ft) fu).1 =
      some (((s.sessions_by_user.lookup (resolveUser s (token.getD ft) fu).1).getD []) ++ [id])) ∧
    ((((s.sessions_by_user.lookup (resolveUser s (token.getD ft) fu).1).getD []) ++ [id]).count id =
      ((s.sessions_by_user.lookup (resolveUser s (token.getD ft) fu).1).getD []).count id + 1) ∧
    ((handleIdentifyAs (V := V) s id token nick ft fu).1.sessions_by_user.lookup A =
      s.sessions_by_user.lookup A) ∧
    ((handleIdentifyAs (V := V) s id token nick ft fu).1.sessions.lookup id =
      some ⟨some (resolveUser s (token.getD ft) fu).1⟩) ∧
    (∀ lA, s.sessions_by_user.lookup A = some lA → id ∈ lA →
      ∀ m : Msg V,
        (id, m) ∈ send_user_message (handleIdentifyAs (V := V) s id token nick ft fu).1 A m) := by
  refine ⟨?_, ?_, ?_, ?_, ?_⟩
  · rw [handleIdentifyAs_sbu s id token nick ft fu]
    exact AList.lookup_insert _
  · simp
  · rw [handleIdentifyAs_sbu s id token nick ft fu]
    exact AList.lookup_insert_ne hA
  · rw [handleIdentifyAs_sessions s id token nick ft fu hsess]
    exact AList.lookup_insert _
  · intro lA hlA hmem m
    apply mem_send_user_message.2
    constructor
    · rw [handleIdentifyAs_sbu s id token nick ft fu,
        AList.lookup_insert_ne hA, hlA]
      exact hmem
    · rw [handleIdentifyAs_sessions s id token nick ft fu hsess,
        AList.lookup_insert]
      rfl

/-- Witness for C10: session 1 of `sEx` (bound to user 10) re-identifies
with an unknown token and becomes user 20; the old binding to user 10 stays
behind and messages to user 10 still reach session 1. -/
theorem identify_never_detaches_witness :
    (sEx.sessions.lookup 1 = some ⟨some 10⟩) ∧
    ((10 : UserId) ≠ (resolveUser sEx ((none : Option Token).getD 6) 20).1) ∧
    (((handleIdentifyAs (V := Unit) sEx 1 none none 6 20).1.sessions_by_user.lookup (resolveUser sEx ((none : Option Token).getD 6) 20).1 =
      some (((sEx.sessions_by_user.lookup (resolveUser sEx ((none : Option Token).getD 6) 20).1).getD []) ++ [1])) ∧
    ((((sEx.sessions_by_user.lookup (resolveUser sEx ((none : Option Token).getD 6) 20).1).getD []) ++ [1]).count 1 =
      ((sEx.sessions_by_user.lookup (resolveUser sEx ((none : Option Token).getD 6) 20).1).getD []).count 1 + 1) ∧
    ((handleIdentifyAs (V := Unit) sEx 1 none none 6 20).1.sessions_by_user.lookup 10 =
      sEx.sessions_by_user.lookup 10) ∧
    ((handleIdentifyAs (V := Unit) sEx 1 none none 6 20).1.sessions.lookup 1 =
      some ⟨some (resolveUser sEx ((none : Option Token).getD 6) 20).1⟩) ∧
    (∀ lA, sEx.sessions_by_user.lookup 10 = some lA → 1 ∈ lA →
      ∀ m : Msg Unit,
        (1, m) ∈ send_user_message (handleIdentifyAs (V := Unit) sEx 1 none none 6 20).1 10 m)) :=
  ⟨by decide, by decide,
    identify_never_detaches sEx 1 none none 6 20 10 ⟨some 10⟩ (by decide) (by decide)⟩

/-- Reduction of `handleCreateRoom` for an identified session. -/
theorem handleCreateRoom_some (E : Engine G V) (s : GameServer G)
    (id : SessionId) (name : String) (now : Nat) {uid : UserId}
    (hid : (s.sessions.lookup id).bind Session.user_id = some uid) :
    (handleCreateRoom E s id name now).2.2 =
      some ((leaveMany E s id (roomsWith s id)).1.game_counter) ∧
    (handleCreateRoom E s id name now).1 =
      { (leaveMany E s id (roomsWith s id)).1 with
          game_counter := ((leaveMany E s id (roomsWith s id)).1.game_counter + 1) % u32Mod,
          rooms := (leaveMany E s id (roomsWith s id)).1.rooms.insert (leaveMany E s id (roomsWith s id)).1.game_counter ⟨{id}, {uid}, name, now, E.standard⟩ } := by
  unfold handleCreateRoom
  split
  next heq => rw [hid] at heq; exact Option.noConfusion heq
  next u heq =>
    rw [hid] at heq
    injection heq with h2
    subst h2
    exact ⟨rfl, rfl⟩

/-- `handleCreateRoom` either rejects (unidentified) leaving the state
untouched, or returns the current counter and bumps it. -/
theorem handleCreateRoom_counter (E : Engine G V) (s : GameServer G)
    (id : SessionId) (name : String) (now : Nat) :
    ((handleCreateRoom E s id name now).2.2 = none ∧
      (handleCreateRoom E s id name now).1 = s) ∨
    ((handleCreateRoom E s id name now).2.2 = some s.game_counter ∧
      (handleCreateRoom E s id name now).1.game_counter = (s.game_counter + 1) % u32Mod) := by
  unfold handleCreateRoom
  split
  next => exact Or.inl ⟨rfl, rfl⟩
  next u heq =>
    refine Or.inr ⟨?_, ?_⟩
    · show some (leaveMany E s id (roomsWith s id)).1.game_counter = some s.game_counter
      rw [(leaveMany_frame E s id (roomsWith s id)).2.2.2.2]
    · show ((leaveMany E s id (roomsWith s id)).1.game_counter + 1) % u32Mod = (s.game_counter + 1) % u32Mod
      rw [(leaveMany_frame E s id (roomsWith s id)).2.2.2.2]

/-- The room counter is untouched by `Connect`. -/
theorem handleConnect_counter (s : GameServer G) (d : SessionId) :
    (handleConnect s d).1.game_counter = s.game_counter := rfl

/-- The room counter is untouched by `Disconnect`. -/
theorem handleDisconnect_counter (E : Engine G V) (s : GameServer G)
    (id : SessionId) :
    (handleDisconnect E s id).1.game_counter = s.game_counter := by
  have e1 : (handleDisconnect E s id).1 =
      removeSession (leaveMany E s id (roomsWith s id)).1 id := rfl
  rw [e1, (removeSession_frame _ id).2.2.2]
  exact (leaveMany_frame E s id (roomsWith s id)).2.2.2.2

/-- The room counter is untouched by `Join`. -/
theorem handleJoin_counter (E : Engine G V) (s : GameServer G)
    (id : SessionId) (rid : RoomId) :
    (handleJoin E s id rid).1.game_counter = s.game_counter := by
  unfold handleJoin
  split
  next => rfl
  next uid heq =>
    have h1 := (joinInsert_frame E (leaveMany E s id (roomsWith s id)).1 id uid rid).2.2.2.2
    have h2 := (leaveMany_frame E s id (roomsWith s id)).2.2.2.2
    exact h1.trans h2

/-- The room counter is untouched by `GameAction`. -/
theorem handleGameAction_counter (E : Engine G V) (s : GameServer G)
    (id : SessionId) (rid : RoomId) (a : WireAction) (now : Nat) :
    (handleGameAction E s id rid a now).1.game_counter = s.game_counter := by
  unfold handleGameAction
  split
  next => rfl
  next uid heq => exact (gameActionTouch_frame E s uid rid a now).2.2.2.2

/-- The room counter is untouched by `IdentifyAs`. -/
theorem handleIdentifyAs_counter (s : GameServer G) (id : SessionId)
    (token : Option Token) (nick : Option String) (ft : Token) (fu : UserId) :
    (handleIdentifyAs (V := V) s id token nick ft fu).1.game_counter = s.game_counter :=
  (bindSession_frame _ id _).2.2.2.2

/-- The room counter is untouched by the reaper kill loop. -/
theorem sweepGo_counter (s : GameServer G) (L : List RoomId) :
    ((sweepGo s L : GameServer G × List (Out V))).1.game_counter = s.game_counter := by
  induction L generalizing s with
  | nil => rfl
  | cons rid rest ih => exact ih _

/-- A step that creates no room leaves the room counter unchanged. -/
theorem step_counter_of_none (E : Engine G V) (s : GameServer G) (op : Op)
    (h : (step E s op).2 = none) :
    (step E s op).1.game_counter = s.game_counter := by
  cases op with
  | connect d => exact handleConnect_counter s d
  | disconnect i => exact handleDisconnect_counter E s i
  | join i r => exact handleJoin_counter E s i r
  | create_room i n t =>
    rcases handleCreateRoom_counter E s i n t with ⟨-, h2⟩ | ⟨h1, -⟩
    · exact congrArg GameServer.game_counter h2
    · have h3 : (step E s (Op.create_room i n t)).2 = some s.game_counter := h1
      rw [h3] at h
      exact Option.noConfusion h
  | game_action i r a t => exact handleGameAction_counter E s i r a t
  | identify_as i tok nk ft fu =>
    exact handleIdentifyAs_counter (V := V) s i tok nk ft fu
  | sweep_tick t => exact sweepGo_counter (V := V) s _

/-- `CreateRoom` never changes the session map. -/
theorem handleCreateRoom_sessions (E : Engine G V) (s : GameServer G)
    (id : SessionId) (name : String) (now : Nat) :
    (handleCreateRoom E s id name now).1.sessions = s.sessions := by
  unfold handleCreateRoom
  split
  next => rfl
  next u heq => exact (leaveMany_frame E s id (roomsWith s id)).1

/-- A step returns a room id only for a successful create, and then the id
is the pre-step counter and the counter is bumped modulo `u32Mod`. -/
theorem step_some (E : Engine G V) (s : GameServer G) (op : Op) (rid : RoomId)
    (h : (step E s op).2 = some rid) :
    rid = s.game_counter ∧
    (step E s op).1.game_counter = (s.game_counter + 1) % u32Mod := by
  cases op with
  | connect d => exact Option.noConfusion h
  | disconnect i => exact Option.noConfusion h
  | join i r => exact Option.noConfusion h
  | game_action i r a t => exact Option.noConfusion h
  | identify_as i tok nk ft fu => exact Option.noConfusion h
  | sweep_tick t => exact Option.noConfusion h
  | create_room i n t =>
    rcases handleCreateRoom_counter E s i n t with ⟨h1, h2⟩ | ⟨h1, h2⟩
    · have h3 : (step E s (Op.create_room i n t)).2 = none := h1
      rw [h3] at h
      exact Option.noConfusion h
    · have h3 : (step E s (Op.create_room i n t)).2 = some s.game_counter := h1
      rw [h3] at h
      injection h with h4
      exact ⟨h4.symm, h2⟩

/-- Unfolding `createdIds` over a step that creates no room. -/
theorem createdIds_cons_none (E : Engine G V) (s : GameServer G) (op : Op)
    (ops : List Op) (h : (step E s op).2 = none) :
    createdIds E s (op :: ops) = createdIds E (step E s op).1 ops := by
  conv_lhs => rw [createdIds]
  rw [h]

/-- Unfolding `createdIds` over a step that creates a room. -/
theorem createdIds_cons_some (E : Engine G V) (s : GameServer G) (op : Op)
    (ops : List Op) (rid : RoomId) (h : (step E s op).2 = some rid) :
    createdIds E s (op :: ops) = rid :: createdIds E (step E s op).1 ops := by
  conv_lhs => rw [createdIds]
  rw [h]

/-- Along any run in which the starting counter plus the number of ids
handed out stays within `u32Mod`, the counter never wraps: every created id
is at least the starting counter and the ids are pairwise strictly
increasing. -/
theorem createdIds_wrap (E : Engine G V) :
    ∀ (ops : List Op) (s : GameServer G),
      s.game_counter + (createdIds E s ops).length ≤ u32Mod →
      (∀ x ∈ createdIds E s ops, s.game_counter ≤ x) ∧
      (createdIds E s ops).Pairwise (· < ·) := by
  intro ops
  induction ops with
  | nil =>
    intro s h
    exact ⟨fun x hx => absurd hx (List.not_mem_nil x), List.Pairwise.nil⟩
  | cons op rest ih =>
    intro s h
    cases hop : (step E s op).2 with
    | none =>
      rw [createdIds_cons_none E s op rest hop] at h ⊢
      rw [← step_counter_of_none E s op hop] at h
      obtain ⟨h1, h2⟩ := ih _ h
      refine ⟨?_, h2⟩
      intro x hx
      exact (step_counter_of_none E s op hop) ▸ h1 x hx
    | some rid =>
      rw [createdIds_cons_some E s op rest rid hop] at h ⊢
      obtain ⟨hrid, hcnt⟩ := step_some E s op rid hop
      subst hrid
      rw [List.length_cons] at h
      by_cases hlt : s.game_counter + 1 < u32Mod
      · have hcnt2 : (step E s op).1.game_counter = s.game_counter + 1 := by
          rw [hcnt]
          exact Nat.mod_eq_of_lt hlt
        have hh : (step E s op).1.game_counter +
            (createdIds E (step E s op).1 rest).length ≤ u32Mod := by
          rw [hcnt2]
          omega
        obtain ⟨h1, h2⟩ := ih _ hh
        constructor
        · intro x hx
          rcases List.mem_cons.1 hx with rfl | hx2
          · exact le_refl _
          · have h3 := h1 x hx2
            rw [hcnt2] at h3
            omega
        · refine List.Pairwise.cons ?_ h2
          intro x hx
          have h3 := h1 x hx
          rw [hcnt2] at h3
          show s.game_counter < x
          omega
      · have hlen : (createdIds E (step E s op).1 rest).length = 0 := by omega
        rw [List.length_eq_zero] at hlen
        rw [hlen]
        refine ⟨?_, ?_⟩
        · intro x hx
          rcases List.mem_singleton.1 hx with rfl
          exact le_refl _
        · exact List.pairwise_singleton _ _

/-- From an identified session and an in-range counter, a block of create
events hands out the successive counter values modulo `u32Mod`. -/
theorem createdIds_replicate (E : Engine G V) (id : SessionId) (uid : UserId)
    (name : String) (now : Nat) :
    ∀ (n : Nat) (s : GameServer G),
      (s.sessions.lookup id).bind Session.user_id = some uid →
      s.game_counter < u32Mod →
      createdIds E s (List.replicate n (Op.create_room id name now)) =
        (List.range n).map (fun k => (s.game_counter + k) % u32Mod) := by
  intro n
  induction n with
  | zero => intro s hid hc; rfl
  | succ n ih =>
    intro s hid hc
    obtain ⟨h1, -⟩ := handleCreateRoom_some E s id name now hid
    have hstep2 : (step E s (Op.create_room id name now)).2 = some s.game_counter := by
      show (handleCreateRoom E s id name now).2.2 = some s.game_counter
      rw [h1, (leaveMany_frame E s id (roomsWith s id)).2.2.2.2]
    have hid2 : ((step E s (Op.create_room id name now)).1.sessions.lookup id).bind Session.user_id = some uid := by
      rw [show (step E s (Op.create_room id name now)).1.sessions =
        (handleCreateRoom E s id name now).1.sessions from rfl]
      rw [handleCreateRoom_sessions E s id name now]
      exact hid
    have hcnt : (step E s (Op.create_room id name now)).1.game_counter =
        (s.game_counter + 1) % u32Mod :=
      (step_some E s (Op.create_room id name now) s.game_counter hstep2).2
    have hc2 : (step E s (Op.create_room id name now)).1.game_counter < u32Mod := by
      rw [hcnt]
      exact Nat.mod_lt _ (by decide)
    rw [show List.replicate (n + 1) (Op.create_room id name now) =
      Op.create_room id name now :: List.replicate n (Op.create_room id name now) from rfl]
    rw [createdIds_cons_some E s _ _ _ hstep2]
    rw [ih _ hid2 hc2]
    rw [hcnt]
    have hfe : (fun k => ((s.game_counter + 1) % u32Mod + k) % u32Mod) =
        ((fun k => (s.game_counter + k) % u32Mod) ∘ Nat.succ) := by
      funext k
      show ((s.game_counter + 1) % u32Mod + k) % u32Mod =
        (s.game_counter + Nat.succ k) % u32Mod
      rw [Nat.mod_add_mod]
      congr 1
      omega
    rw [List.range_succ_eq_map, List.map_cons, List.map_map, hfe]
    congr 1
    show s.game_counter = (s.game_counter + 0) % u32Mod
    rw [Nat.add_zero]
    exact (Nat.mod_eq_of_lt hc).symm

/-- A full wrap plus one of successive counter values is never strictly
increasing: the first and the `u32Mod`-th value coincide. -/
theorem not_pairwise_wrap_seq (c : Nat) :
    ¬ ((List.range (u32Mod + 1)).map (fun k => (c + k) % u32Mod)).Pairwise (· < ·) := by
  intro hp
  have h1 : (0 : Nat) <
      ((List.range (u32Mod + 1)).map (fun k => (c + k) % u32Mod)).length := by
    rw [List.length_map, List.length_range]
    omega
  have h2 : u32Mod <
      ((List.range (u32Mod + 1)).map (fun k => (c + k) % u32Mod)).length := by
    rw [List.length_map, List.length_range]
    omega
  have hij : (⟨0, h1⟩ : Fin ((List.range (u32Mod + 1)).map (fun k => (c + k) % u32Mod)).length) < ⟨u32Mod, h2⟩ :=
    Fin.mk_lt_mk.2 (by decide)
  have h3 := List.pairwise_iff_get.1 hp ⟨0, h1⟩ ⟨u32Mod, h2⟩ hij
  simp only [List.get_eq_getElem, List.getElem_map, List.getElem_range] at h3
  have he : (c + u32Mod) % u32Mod = (c + 0) % u32Mod := by
    rw [Nat.add_zero]
    exact Nat.add_mod_right c u32Mod
  rw [he] at h3
  exact lt_irrefl _ h3

/-- C5 (amended): room id allocation is strictly monotonic and ids are
never reused throughout any run that hands out at most `2^32` ids — within
such a run the ids returned by successful create-room events are pairwise
strictly increasing in creation order, even across room destruction; the
release-build `u32` counter wraps after `2^32` allocations, at which point
ids repeat. Each successful create by an identified session returns the
current counter, bumps it modulo `2^32`, and installs a fresh standard
game whose member set is exactly the creator's session and whose
distinct-user set is exactly the creator's user. -/
theorem create_room_monotonic (E : Engine G V) :
    (∀ ops : List Op,
      (createdIds E (GameServer.default G) ops).length ≤ u32Mod →
      (createdIds E (GameServer.default G) ops).Pairwise (· < ·)) ∧
    (∀ (s : GameServer G) (id : SessionId) (uid : UserId) (name : String) (now : Nat),
      (s.sessions.lookup id).bind Session.user_id = some uid →
      (handleCreateRoom E s id name now).2.2 = some s.game_counter ∧
      (handleCreateRoom E s id name now).1.game_counter = (s.game_counter + 1) % u32Mod ∧
      ((handleCreateRoom E s id name now).1).rooms.lookup s.game_counter =
        some ⟨{id}, {uid}, name, now, E.standard⟩) := by
  constructor
  · intro ops h
    refine (createdIds_wrap E ops (GameServer.default G) ?_).2
    have h0 : (GameServer.default G).game_counter = 0 := rfl
    rw [h0, Nat.zero_add]
    exact h
  · intro s id uid name now hid
    obtain ⟨h1, h2⟩ := handleCreateRoom_some E s id name now hid
    have hc := (leaveMany_frame E s id (roomsWith s id)).2.2.2.2
    refine ⟨?_, ?_, ?_⟩
    · rw [h1, hc]
    · rw [h2]
      show ((leaveMany E s id (roomsWith s id)).1.game_counter + 1) % u32Mod =
        (s.game_counter + 1) % u32Mod
      rw [hc]
    · rw [h2]
      show ((leaveMany E s id (roomsWith s id)).1.rooms.insert (leaveMany E s id (roomsWith s id)).1.game_counter ⟨{id}, {uid}, name, now, E.standard⟩).lookup s.game_counter = _
      rw [hc]
      exact AList.lookup_insert _

/-- Counterexample for C5 as stated: a run with `2^32 + 1` successful
creates wraps the `u32` counter and hands out id 0 twice, so the created
ids of that run are not strictly increasing — ids are reused once the
counter overflows. -/
theorem create_room_monotonic_cex :
    ¬ (createdIds UE (GameServer.default Unit)
        (Op.connect 1 :: Op.identify_as 1 none none 5 10 ::
          List.replicate (u32Mod + 1) (Op.create_room 1 "a" 0))).Pairwise (· < ·) := by
  intro hp
  rw [createdIds_cons_none UE (GameServer.default Unit) (Op.connect 1) _ rfl] at hp
  rw [createdIds_cons_none UE (step UE (GameServer.default Unit) (Op.connect 1)).1 (Op.identify_as 1 none none 5 10) _ rfl] at hp
  rw [createdIds_replicate UE 1 10 "a" 0 (u32Mod + 1) _ (by decide) (by decide)] at hp
  exact not_pairwise_wrap_seq _ hp

/-- Witness for C5 (amended): the concrete run behind `sEx` hands out ids
0 then 1 (well within the `2^32` bound), and a further create from `sEx`
(counter 2) returns id 2 with the fresh room. -/
theorem create_room_monotonic_witness :
    ((createdIds UE (GameServer.default Unit)
      [Op.connect 1, Op.identify_as 1 none none 5 10,
       Op.create_room 1 "a" 0, Op.create_room 1 "b" 0]).length ≤ u32Mod) ∧
    (createdIds UE (GameServer.default Unit)
      [Op.connect 1, Op.identify_as 1 none none 5 10,
       Op.create_room 1 "a" 0, Op.create_room 1 "b" 0]).Pairwise (· < ·) ∧
    ((sEx.sessions.lookup 1).bind Session.user_id = some 10) ∧
    ((handleCreateRoom UE sEx 1 "c" 7).2.2 = some sEx.game_counter ∧
      (handleCreateRoom UE sEx 1 "c" 7).1.game_counter = (sEx.game_counter + 1) % u32Mod ∧
      ((handleCreateRoom UE sEx 1 "c" 7).1).rooms.lookup sEx.game_counter =
        some ⟨{1}, {10}, "c", 7, UE.standard⟩) :=
  ⟨by decide, (create_room_monotonic UE).1 _ (by decide), by decide,
    (create_room_monotonic UE).2 sEx 1 10 "c" 7 (by decide)⟩

/-- The kill list has no duplicate room ids. -/
theorem killedRooms_nodup (s : GameServer G) (now : Nat) :
    (killedRooms s now).Nodup := by
  have h1 : List.Sublist
      ((s.rooms.entries.filter
        (fun e => decide (3600 < now - e.snd.last_action))).map Sigma.fst)
      (s.rooms.entries.map Sigma.fst) :=
    (List.filter_sublist _).map _
  exact h1.nodup s.rooms.keys_nodup

/-- A room id is killed exactly when its room exists and has been idle for
strictly more than the threshold. -/
theorem mem_killedRooms {s : GameServer G} {now r : Nat} :
    r ∈ killedRooms s now ↔
      ∃ room, s.rooms.lookup r = some room ∧ 3600 < now - room.last_action := by
  constructor
  · intro h
    rcases List.mem_map.1 h with ⟨e, he, rfl⟩
    rcases List.mem_filter.1 he with ⟨hmem, hdec⟩
    refine ⟨e.snd, ?_, of_decide_eq_true hdec⟩
    exact AList.mem_lookup_iff.2 (by rw [Sigma.eta]; exact hmem)
  · rintro ⟨room, hl, hm⟩
    refine List.mem_map.2 ⟨⟨r, room⟩, ?_, rfl⟩
    exact List.mem_filter.2 ⟨AList.mem_lookup_iff.1 hl, decide_eq_true hm⟩

/-- The kill loop touches only the `rooms` field. -/
theorem sweepGo_sessions (s : GameServer G) (L : List RoomId) :
    ((sweepGo s L : GameServer G × List (Out V))).1.sessions = s.sessions := by
  induction L generalizing s with
  | nil => rfl
  | cons rid rest ih => exact ih _

/-- Rooms not on the kill list keep their entry. -/
theorem sweepGo_lookup_notin (s : GameServer G) (L : List RoomId) {r : RoomId}
    (h : r ∉ L) :
    ((sweepGo s L : GameServer G × List (Out V))).1.rooms.lookup r =
      s.rooms.lookup r := by
  induction L generalizing s with
  | nil => rfl
  | cons rid rest ih =>
    have hne : r ≠ rid := fun he => h (he ▸ List.mem_cons_self r rest)
    have hrest : r ∉ rest := fun hr => h (List.mem_cons_of_mem rid hr)
    have h2 := ih { s with rooms := s.rooms.erase rid } hrest
    rw [show ((sweepGo s (rid :: rest) : GameServer G × List (Out V))).1 =
      ((sweepGo { s with rooms := s.rooms.erase rid } rest : GameServer G × List (Out V))).1 from rfl]
    rw [h2]
    exact AList.lookup_erase_ne hne

/-- Rooms on the kill list are gone afterwards. -/
theorem sweepGo_lookup_in (s : GameServer G) (L : List RoomId) {r : RoomId}
    (h : r ∈ L) :
    ((sweepGo s L : GameServer G × List (Out V))).1.rooms.lookup r = none := by
  induction L generalizing s with
  | nil => exact absurd h (List.not_mem_nil r)
  | cons rid rest ih =>
    rw [show ((sweepGo s (rid :: rest) : GameServer G × List (Out V))).1 =
      ((sweepGo { s with rooms := s.rooms.erase rid } rest : GameServer G × List (Out V))).1 from rfl]
    by_cases hr : r ∈ rest
    · exact ih _ hr
    · have he : r = rid := by
        rcases List.mem_cons.1 h with h1 | h1
        · exact h1
        · exact absurd h1 hr
      subst he
      rw [sweepGo_lookup_notin _ rest hr]
      exact AList.lookup_erase r _


/-- Occurrences of a key among the entries of an `AList`: one when bound,
zero otherwise. -/
theorem countP_fst_entries {β : Type} (m : AList (fun _ : Nat => β)) (sid : Nat) :
    m.entries.countP (fun e => e.fst == sid) =
      if (m.lookup sid).isSome then 1 else 0 := by
  have h1 : m.entries.countP (fun e => e.fst == sid) =
      (m.entries.map Sigma.fst).count sid := by
    rw [List.count_eq_countP, List.countP_map]
    rfl
  rw [h1]
  by_cases hmem : sid ∈ m
  · rw [if_pos (AList.lookup_isSome.2 hmem)]
    exact List.count_eq_one_of_mem m.keys_nodup (AList.mem_keys.1 hmem)
  · rw [if_neg (fun hc => hmem (AList.lookup_isSome.1 hc))]
    exact List.count_eq_zero_of_not_mem (fun hc => hmem (AList.mem_keys.2 hc))

/-- A global `CloseRoom` broadcast delivers the notice once to each
connected session and nothing else. -/
theorem countP_send_global (s : GameServer G) (sid : SessionId)
    (rid rid' : RoomId) :
    ((send_global_message s (Msg.CloseRoom rid') : List (Out V))).countP (isCloseTo sid rid) =
      if rid' = rid ∧ (s.sessions.lookup sid).isSome then 1 else 0 := by
  unfold send_global_message
  rw [List.countP_map]
  have hfun : ((isCloseTo sid rid : Out V → Bool) ∘
      fun e : Sigma (fun _ : Nat => Session) => (e.fst, (Msg.CloseRoom rid' : Msg V))) =
      fun e : Sigma (fun _ : Nat => Session) => e.fst == sid && rid' == rid := by
    funext e
    rfl
  rw [hfun]
  by_cases hr : rid' = rid
  · subst hr
    have hfun2 : (fun e : Sigma (fun _ : Nat => Session) => e.fst == sid && rid' == rid') =
        fun e : Sigma (fun _ : Nat => Session) => e.fst == sid := by
      funext e
      simp
    rw [hfun2, countP_fst_entries]
    by_cases hs : (s.sessions.lookup sid).isSome
    · rw [if_pos hs, if_pos ⟨rfl, hs⟩]
    · rw [if_neg hs, if_neg (fun hc => hs hc.2)]
  · rw [if_neg (fun hc => hr hc.1)]
    rw [List.countP_eq_zero]
    intro e hmem hcon
    rw [Bool.and_eq_true] at hcon
    exact hr (eq_of_beq hcon.2)

/-- Notice count over the kill loop: one `CloseRoom rid` per live session
when `rid` is killed, none otherwise. -/
theorem sweepGo_countP (s : GameServer G) (L : List RoomId) (hnd : L.Nodup)
    (sid : SessionId) (rid : RoomId) :
    ((sweepGo s L : GameServer G × List (Out V))).2.countP (isCloseTo sid rid) =
      if rid ∈ L ∧ (s.sessions.lookup sid).isSome then 1 else 0 := by
  induction L generalizing s with
  | nil =>
    rw [if_neg (fun hc => List.not_mem_nil rid hc.1)]
    rfl
  | cons rid0 rest ih =>
    have hnd2 := List.nodup_cons.1 hnd
    have e1 : ((sweepGo s (rid0 :: rest) : GameServer G × List (Out V))).2 =
        send_global_message ({ s with rooms := s.rooms.erase rid0 } : GameServer G) (Msg.CloseRoom rid0) ++
          ((sweepGo ({ s with rooms := s.rooms.erase rid0 } : GameServer G) rest : GameServer G × List (Out V))).2 := rfl
    rw [e1, List.countP_append, countP_send_global]
    have h2 : ((sweepGo ({ s with rooms := s.rooms.erase rid0 } : GameServer G) rest : GameServer G × List (Out V))).2.countP (isCloseTo sid rid) =
        if rid ∈ rest ∧ (s.sessions.lookup sid).isSome then 1 else 0 :=
      ih _ hnd2.2
    rw [h2]
    by_cases hs : (s.sessions.lookup sid).isSome
    · by_cases h0 : rid0 = rid
      · subst h0
        rw [if_pos ⟨rfl, hs⟩, if_neg (fun hc => hnd2.1 hc.1),
          if_pos ⟨List.mem_cons_self rid0 rest, hs⟩]
      · rw [if_neg (fun hc => h0 hc.1)]
        by_cases hrr : rid ∈ rest
        · rw [if_pos ⟨hrr, hs⟩, if_pos ⟨List.mem_cons_of_mem rid0 hrr, hs⟩]
        · rw [if_neg (fun hc => hrr hc.1)]
          rw [if_neg (fun hc => ?_)]
          rcases List.mem_cons.1 hc.1 with h3 | h3
          · exact h0 h3.symm
          · exact hrr h3
    · rw [if_neg (fun hc => hs hc.2), if_neg (fun hc => hs hc.2),
        if_neg (fun hc => hs hc.2)]

/-- Membership in the room list is room existence. -/
theorem mem_listRooms {s : GameServer G} {r : RoomId} :
    r ∈ (handleListRooms s).map Prod.fst ↔ (s.rooms.lookup r).isSome := by
  unfold handleListRooms
  rw [List.map_map]
  constructor
  · intro h
    rcases List.mem_map.1 h with ⟨e, he, rfl⟩
    refine AList.lookup_isSome.2 (AList.mem_keys.2 ?_)
    exact List.mem_map.2 ⟨e, he, rfl⟩
  · intro h
    rcases List.mem_map.1 (AList.mem_keys.1 (AList.lookup_isSome.1 h)) with ⟨e, he, rfl⟩
    exact List.mem_map.2 ⟨e, he, rfl⟩

/-- C8: one reaper sweep at time `now` removes every room idle for strictly
more than the 3600-second threshold — the room is gone from the room map
and the room list — and broadcasts its `CloseRoom` notice exactly once to
every connected session; rooms idle for at most the threshold keep their
entry untouched. -/
theorem sweep_reaps (s : GameServer G) (now : Nat) :
    (∀ rid room, s.rooms.lookup rid = some room →
      3600 < now - room.last_action →
      ((sweep s now : GameServer G × List (Out V))).1.rooms.lookup rid = none ∧
      rid ∉ (handleListRooms ((sweep s now : GameServer G × List (Out V))).1).map Prod.fst ∧
      ∀ sid, (s.sessions.lookup sid).isSome →
        ((sweep s now : GameServer G × List (Out V))).2.countP (isCloseTo sid rid) = 1) ∧
    (∀ rid room, s.rooms.lookup rid = some room →
      now - room.last_action ≤ 3600 →
      ((sweep s now : GameServer G × List (Out V))).1.rooms.lookup rid = some room) := by
  constructor
  · intro rid room hl hidle
    have hk : rid ∈ killedRooms s now := mem_killedRooms.2 ⟨room, hl, hidle⟩
    have hgone : ((sweep s now : GameServer G × List (Out V))).1.rooms.lookup rid = none :=
      sweepGo_lookup_in s _ hk
    refine ⟨hgone, ?_, ?_⟩
    · intro hc
      have h2 := mem_listRooms.1 hc
      rw [hgone] at h2
      exact Bool.noConfusion h2
    · intro sid hs
      have h3 := sweepGo_countP (V := V) s (killedRooms s now)
        (killedRooms_nodup s now) sid rid
      rw [if_pos ⟨hk, hs⟩] at h3
      exact h3
  · intro rid room hl hidle
    have hk : rid ∉ killedRooms s now := by
      intro hc
      rcases mem_killedRooms.1 hc with ⟨room2, hl2, hidle2⟩
      rw [hl] at hl2
      injection hl2 with h4
      subst h4
      exact absurd hidle2 (not_lt.2 hidle)
    rw [show ((sweep s now : GameServer G × List (Out V))).1 =
      ((sweepGo s (killedRooms s now) : GameServer G × List (Out V))).1 from rfl]
    rw [sweepGo_lookup_notin s _ hk]
    exact hl

/-- Witness for C8: sweeping `sEx` at time 5000 kills both rooms (idle
5000 seconds) and notifies session 1 once per room; sweeping at time 3600
(idle exactly the threshold) leaves room 0 untouched. -/
theorem sweep_reaps_witness :
    (sEx.rooms.lookup 0 = some ⟨∅, ∅, "a", 0, ()⟩) ∧
    (3600 < 5000 - (0 : Nat)) ∧
    (((sweep sEx 5000 : GameServer Unit × List (Out Unit))).1.rooms.lookup 0 = none ∧
      (0 : RoomId) ∉ (handleListRooms ((sweep sEx 5000 : GameServer Unit × List (Out Unit))).1).map Prod.fst ∧
      ∀ sid, (sEx.sessions.lookup sid).isSome →
        ((sweep sEx 5000 : GameServer Unit × List (Out Unit))).2.countP (isCloseTo sid 0) = 1) ∧
    (5000 - (0 : Nat) ≤ 5000) ∧
    (((sweep sEx 3600 : GameServer Unit × List (Out Unit))).1.rooms.lookup 0 = some ⟨∅, ∅, "a", 0, ()⟩) :=
  ⟨by decide, by decide,
    (sweep_reaps sEx 5000).1 0 ⟨∅, ∅, "a", 0, ()⟩ (by decide) (by decide),
    by decide,
    (sweep_reaps sEx 3600).2 0 ⟨∅, ∅, "a", 0, ()⟩ (by decide) (by decide)⟩

end VGS
